import Mathlib

/-!
Verification development for the quiznet-tcp-udp trivia servers.

The development shallowly embeds the two server implementations
(`src/udp_quiz/server_udp.py` and `src/tcp_quiz/server_tcp.py`) as pure
state-transition functions.  The participant registry (a CPython dict in
insertion order) is a key/value list; wall-clock times are natural numbers
supplied with each inbound event; every handler returns the new server
state together with the list of messages it sends.  Per-question timer
threads are represented by explicit timeout events: the handlers' own
pointer checks make spurious or stale timeout events no-ops, so allowing
an arbitrary interleaving of events over-approximates the scheduler.
-/

/-- One quiz question as produced by the loaders: identifier, text, the
ordered letter-to-text option mapping, and the correct letter. -/
structure Question where
  qid : String
  text : String
  options : List (String × String)
  correct : String
deriving Repr, DecidableEq

/-- Per-participant state.  Mirrors the per-client info dict of both servers
(`username`, `score`, `last_seen`, `connected`, `question_index`, `finished`,
`question_start_time`).  The CPython dicts additionally store the logging-only
peer address (TCP) and a handle to the timer thread; neither is ever read by
the game logic, and timers are modelled as explicit timeout events. -/
structure ClientInfo where
  username : String
  score : Nat
  lastSeen : Nat
  connected : Bool
  questionIndex : Nat
  finished : Bool
  questionStartTime : Nat
deriving Repr, DecidableEq

/-- An outbound message: either a unicast to one connection identity or a
broadcast to every registered client. -/
inductive Msg where
  | send (addr : Nat) (text : String)
  | broadcast (text : String)
deriving Repr, DecidableEq

/-- Connection identity: the UDP server keys clients by peer address, the TCP
server by handler thread; both are abstracted to a natural number. -/
abbrev Addr := Nat

/-- The participant registry: a CPython dict in insertion order. -/
abbrev Registry := List (Addr × ClientInfo)

/-- Leading-whitespace drop on a character list. -/
def dropLeadingWs : List Char → List Char
  | [] => []
  | c :: cs => if c.isWhitespace then dropLeadingWs cs else c :: cs

/-- CPython `str.strip()`: both ends cleared of whitespace (the ASCII
whitespace characters that occur on this wire format). -/
def pyStrip (s : String) : String :=
  ⟨(dropLeadingWs (dropLeadingWs s.data).reverse).reverse⟩

/-- CPython `str.lower()` on the ASCII range. -/
def pyLower (s : String) : String :=
  ⟨s.data.map Char.toLower⟩

/-- CPython `str.split(sep)` on a character list, single-character separator
(both servers only ever split on `:` and `|`). -/
def splitChar (sep : Char) : List Char → List (List Char)
  | [] => [[]]
  | c :: cs =>
    let r := splitChar sep cs
    if c = sep then [] :: r
    else
      match r with
      | [] => [[c]]
      | h :: t => (c :: h) :: t

/-- CPython `str.split(sep)` for a single-character separator. -/
def pySplit (sep : Char) (s : String) : List String :=
  (splitChar sep s.data).map (fun l => ⟨l⟩)

/-- Dict lookup: first (and, with unique keys, only) binding of the key. -/
def lookupClient : Registry → Addr → Option ClientInfo
  | [], _ => none
  | (b, ci) :: r, a => if b = a then some ci else lookupClient r a

/-- Dict assignment `d[k] = v`: replaces the binding in place when the key is
present (preserving its position), otherwise appends. -/
def setClient : Registry → Addr → ClientInfo → Registry
  | [], a, ci => [(a, ci)]
  | (b, cj) :: r, a, ci => if b = a then (a, ci) :: r else (b, cj) :: setClient r a ci

/-- Dict deletion `del d[k]`. -/
def removeClient (r : Registry) (a : Addr) : Registry :=
  r.filter (fun p => p.1 ≠ a)

/-- Deletion of every client registered under a given display name
(the UDP join handler collects and deletes all of them). -/
def removeByName (r : Registry) (name : String) : Registry :=
  r.filter (fun p => p.2.username ≠ name)

/-- First registry entry holding a given display name, if any (the TCP join
handler scans the dict and stops at the first match). -/
def findThreadByName (r : Registry) (name : String) : Option Addr :=
  (r.find? (fun p => p.2.username = name)).map (·.1)

/-- The completion test `all(ci.get('finished', False) for ci in clients.values())`;
vacuously true on an empty registry. -/
def allFinished (r : Registry) : Bool :=
  r.all (fun p => p.2.finished)

/-- Dict lookup on an option table. -/
def lookupAssoc : List (String × String) → String → Option String
  | [], _ => none
  | (k, v) :: r, key => if k = key then some v else lookupAssoc r key

/-- Dict assignment on an option table (used by the loaders). -/
def setAssoc : List (String × String) → String → String → List (String × String)
  | [], k, v => [(k, v)]
  | (k', v') :: r, k, v => if k' = k then (k, v) :: r else (k', v') :: setAssoc r k v

/-- The single pipe-delimited question line both servers send:
`Question <n>: <text> | a) ... | ... | Time limit: <s> seconds`. -/
def formatQuestion (idx : Nat) (q : Question) (dur : Nat) : String :=
  "Question " ++ toString (idx + 1) ++ ": " ++ q.text ++ " | " ++
    String.intercalate " | " (q.options.map (fun p => p.1 ++ ") " ++ p.2)) ++
    " | Time limit: " ++ toString dur ++ " seconds"

/-- The `Connected players:` listing, newline-terminated as built by both
servers (the UDP server strips it before broadcasting, the TCP one does not). -/
def playerListString (r : Registry) : String :=
  "Connected players:\n" ++
    String.join (r.map (fun p => "- " ++ p.2.username ++ " (" ++ toString p.2.score ++ " points)\n"))

/-- Insertion step of the leaderboard sort: the new element passes every
element with a strictly greater score and lands in front of the first element
whose score is not greater.  Because elements are inserted back in reverse
registration order, an earlier joiner is placed before any later joiner with
an equal score, which is exactly the stability guarantee of CPython's
`sorted(..., key=lambda x: x['score'], reverse=True)`. -/
def insertDesc (c : ClientInfo) : List ClientInfo → List ClientInfo
  | [] => [c]
  | y :: ys => if y.score > c.score then y :: insertDesc c ys else c :: y :: ys

/-- Stable sort by score descending, the semantics of
`sorted(clients.values(), key=lambda x: x['score'], reverse=True)`. -/
def sortDesc : List ClientInfo → List ClientInfo
  | [] => []
  | x :: xs => insertDesc x (sortDesc xs)

/-- Copy of `insertDesc` carrying each client's registration index: the
comparison still reads only the score component. -/
def insertDescIdx (c : Nat × ClientInfo) : List (Nat × ClientInfo) → List (Nat × ClientInfo)
  | [] => [c]
  | y :: ys => if y.2.score > c.2.score then y :: insertDescIdx c ys else c :: y :: ys

/-- Copy of `sortDesc` carrying registration indices. -/
def sortDescIdx : List (Nat × ClientInfo) → List (Nat × ClientInfo)
  | [] => []
  | x :: xs => insertDescIdx x (sortDescIdx xs)

/-- Strict leaderboard order: strictly greater score, or equal scores with
the strictly earlier registration index. -/
def rankLt (x y : Nat × ClientInfo) : Prop :=
  y.2.score < x.2.score ∨ (x.2.score = y.2.score ∧ x.1 < y.1)

/-- Number of broadcasts of one exact text within a message list. -/
def countBroadcast (msgs : List Msg) (t : String) : Nat :=
  (msgs.filter (fun m => match m with | Msg.broadcast u => u = t | _ => false)).length

/-- Number of registry entries whose display name is the given one. -/
def countName (r : Registry) (name : String) : Nat :=
  (r.filter (fun p => p.2.username = name)).length

/-- The per-client info dict both join handlers create for a newcomer. -/
def freshClient (username : String) (now : Nat) : ClientInfo :=
  { username := username, score := 0, lastSeen := now, connected := true,
    questionIndex := 0, finished := false, questionStartTime := 0 }

/-- State of the UDP server (`UDPQuizServer`): the registry, the loaded
question bank, the `game_over` flag and the per-question time allowance. -/
structure UDPServer where
  clients : Registry
  questions : List Question
  gameOver : Bool
  questionDuration : Nat
deriving Repr, DecidableEq

/-- Fresh UDP server over a given bank, as left by `UDPQuizServer.__init__`
(the loader itself is modelled separately for the TCP variant). -/
def initUDPServer (qs : List Question) : UDPServer :=
  { clients := [], questions := qs, gameOver := false, questionDuration := 15 }

/-- Leaderboard lines of `UDPQuizServer._end_game`: a header line followed by
one trophy-prefixed line per ranked client. -/
def leaderboardLinesUDP (sorted : List ClientInfo) : List String :=
  "🏆 FINAL LEADERBOARD 🏆" ::
    sorted.enum.map (fun p =>
      "🏆 " ++ toString (p.1 + 1) ++ ". " ++ p.2.username ++ ": " ++ toString p.2.score ++ " points")

/-- `UDPQuizServer._end_game`: a no-op once `game_over` is set; otherwise sets
the flag, broadcasts the final-results banner and each leaderboard line, and
finally resets every remaining client's score to zero. -/
def endGameUDP (srv : UDPServer) : UDPServer × List Msg :=
  if srv.gameOver then (srv, [])
  else
    let srv1 : UDPServer := { srv with gameOver := true }
    let sorted := sortDesc (srv1.clients.map (·.2))
    let msgs := Msg.broadcast "Quiz completed! Final results:" ::
      (leaderboardLinesUDP sorted).map Msg.broadcast
    let srv2 : UDPServer :=
      { srv1 with clients := srv1.clients.map (fun p => (p.1, { p.2 with score := 0 })) }
    (srv2, msgs)

/-- `UDPQuizServer._broadcast_player_list`: nothing on an empty registry,
otherwise the stripped player listing. -/
def broadcastPlayerListUDP (r : Registry) : List Msg :=
  if r.isEmpty then [] else [Msg.broadcast (pyStrip (playerListString r))]

/-- `UDPQuizServer._send_question_to_client`: skips missing or finished
clients; a client whose pointer has run past the bank is marked finished
(ending the game if everyone is done); otherwise the current question is sent
and the start time recorded.  The timer thread armed here is modelled by
timeout events. -/
def sendQuestionUDP (srv : UDPServer) (addr : Addr) (now : Nat) : UDPServer × List Msg :=
  match lookupClient srv.clients addr with
  | none => (srv, [])
  | some ci =>
    if ci.finished then (srv, [])
    else if _h : srv.questions.length ≤ ci.questionIndex then
      let ci' := { ci with finished := true }
      let srv' : UDPServer := { srv with clients := setClient srv.clients addr ci' }
      if allFinished srv'.clients then endGameUDP srv'
      else (srv', [Msg.send addr "Quiz completed! Waiting for other players to finish..."])
    else
      let q := srv.questions.get ⟨ci.questionIndex, by omega⟩
      let full := formatQuestion ci.questionIndex q srv.questionDuration
      let ci' := { ci with questionStartTime := now }
      let srv' : UDPServer := { srv with clients := setClient srv.clients addr ci' }
      (srv', [Msg.send addr full])

/-- `UDPQuizServer._handle_answer`.  Unregistered senders get an error; a
finished client's answer is rejected with `error:Quiz completed`; otherwise
the trimmed lower-cased payload is compared — whole — to the current
question's correct letter, the score and reply follow the comparison, the
pointer advances by one, and either the quiz ends for this client or the
next question is dispatched.  A question whose correct letter is missing from
its option table would raise a `KeyError` in CPython; the model totalises
that lookup with a default, so theorems that depend on it assume a
well-formed bank. -/
def handleAnswerUDP (srv : UDPServer) (addr : Addr) (payload : String) (now : Nat) :
    UDPServer × List Msg :=
  match lookupClient srv.clients addr with
  | none => (srv, [Msg.send addr "error:Not registered"])
  | some ci =>
    if ci.finished then (srv, [Msg.send addr "error:Quiz completed"])
    else if _h : srv.questions.length ≤ ci.questionIndex then
      let ci' := { ci with finished := true }
      let srv' : UDPServer := { srv with clients := setClient srv.clients addr ci' }
      if allFinished srv'.clients then endGameUDP srv'
      else (srv', [Msg.send addr "Quiz completed! Waiting for other players to finish..."])
    else
      let answer := pyStrip (pyLower payload)
      let idx := ci.questionIndex
      let q := srv.questions.get ⟨idx, by omega⟩
      let correctText := (lookupAssoc q.options q.correct).getD ""
      let newScore := if answer = q.correct then ci.score + 10 else ci.score
      let reply :=
        if answer = q.correct then Msg.send addr "correct:10 points"
        else Msg.send addr ("incorrect:Correct answer was " ++ q.correct ++ ") " ++ correctText)
      let ci2 := { ci with lastSeen := now, score := newScore, questionIndex := idx + 1 }
      if _hf : srv.questions.length ≤ idx + 1 then
        let ci3 := { ci2 with finished := true }
        let srv' : UDPServer := { srv with clients := setClient srv.clients addr ci3 }
        if allFinished srv'.clients then
          let r := endGameUDP srv'
          (r.1, reply :: r.2)
        else (srv', [reply, Msg.send addr "Quiz completed! Waiting for other players to finish..."])
      else
        let srv' : UDPServer := { srv with clients := setClient srv.clients addr ci2 }
        let r := sendQuestionUDP srv' addr now
        (r.1, reply :: r.2)

/-- `UDPQuizServer._handle_join`: empty trimmed names are rejected with no
state change; otherwise every client already registered under the name is
deleted, the newcomer is registered, greeted and announced, and — unless the
game is over — the first question is dispatched. -/
def handleJoinUDP (srv : UDPServer) (addr : Addr) (payload : String) (now : Nat) :
    UDPServer × List Msg :=
  let username := pyStrip payload
  if username = "" then (srv, [Msg.send addr "error:Invalid username"])
  else
    let cleaned := removeByName srv.clients username
    let srv' : UDPServer := { srv with clients := setClient cleaned addr (freshClient username now) }
    let msgs1 := Msg.send addr ("welcome:" ++ username) :: broadcastPlayerListUDP srv'.clients
    if srv'.gameOver then
      (srv', msgs1 ++ [Msg.send addr "Game over! Please wait for the next session."])
    else
      let r := sendQuestionUDP srv' addr now
      (r.1, msgs1 ++ r.2)

/-- `UDPQuizServer._question_timeout_handler`: fires only while the client is
unfinished and still on the very question the timer was armed for; it then
reveals the correct option and advances exactly as an answer would.  A timer
index outside the bank would raise in CPython before any state change or
send (killing only the timer thread), so it is a no-op here as well. -/
def timeoutUDP (srv : UDPServer) (addr : Addr) (qidx : Nat) (now : Nat) :
    UDPServer × List Msg :=
  match lookupClient srv.clients addr with
  | none => (srv, [])
  | some ci =>
    if ci.finished || ci.questionIndex != qidx then (srv, [])
    else if h : qidx < srv.questions.length then
      let q := srv.questions.get ⟨qidx, h⟩
      let correctText := (lookupAssoc q.options q.correct).getD ""
      let msg1 := Msg.send addr ("Time's up! Correct answer: " ++ q.correct ++ ") " ++ correctText)
      let ci' := { ci with questionIndex := qidx + 1 }
      if _hf : srv.questions.length ≤ qidx + 1 then
        let ci'' := { ci' with finished := true }
        let srv' : UDPServer := { srv with clients := setClient srv.clients addr ci'' }
        if allFinished srv'.clients then
          let r := endGameUDP srv'
          (r.1, msg1 :: r.2)
        else (srv', [msg1, Msg.send addr "Quiz completed! Waiting for other players to finish..."])
      else
        let srv' : UDPServer := { srv with clients := setClient srv.clients addr ci' }
        let r := sendQuestionUDP srv' addr now
        (r.1, msg1 :: r.2)
    else (srv, [])

/-- `UDPQuizServer._cleanup_loop`, one sweep: deletes every client idle past
the 60-unit threshold and, when any were deleted and some remain, announces
the remaining players. -/
def cleanupUDP (srv : UDPServer) (now : Nat) : UDPServer × List Msg :=
  let isIdle := fun (p : Addr × ClientInfo) => p.2.connected && decide (60 < now - p.2.lastSeen)
  let toRemove := srv.clients.filter isIdle
  if toRemove.isEmpty then (srv, [])
  else
    let remaining := srv.clients.filter (fun p => !isIdle p)
    let srv' : UDPServer := { srv with clients := remaining }
    (srv', if remaining.isEmpty then [] else broadcastPlayerListUDP remaining)

/-- One inbound event: a decoded command from some connection identity, a
firing per-question timer, or one reaper sweep. -/
inductive Event where
  | join (addr : Addr) (name : String) (now : Nat)
  | answer (addr : Addr) (payload : String) (now : Nat)
  | ping (addr : Addr) (now : Nat)
  | timeout (addr : Addr) (qidx : Nat) (now : Nat)
  | cleanup (now : Nat)
deriving Repr, DecidableEq

/-- Dispatch of `UDPQuizServer._receive_loop`: `ping` refreshes `last_seen`
for registered senders and always answers `pong`; `join` and `answer`
payloads are stripped before their handlers run. -/
def stepUDP (srv : UDPServer) (e : Event) : UDPServer × List Msg :=
  match e with
  | .join a name now => handleJoinUDP srv a (pyStrip name) now
  | .answer a payload now => handleAnswerUDP srv a (pyStrip payload) now
  | .ping a now =>
      let srv' : UDPServer :=
        match lookupClient srv.clients a with
        | some ci => { srv with clients := setClient srv.clients a { ci with lastSeen := now } }
        | none => srv
      (srv', [Msg.send a "pong"])
  | .timeout a qidx now => timeoutUDP srv a qidx now
  | .cleanup now => cleanupUDP srv now

/-- Run of a whole event trace, accumulating all messages in send order. -/
def runUDP (srv : UDPServer) (es : List Event) : UDPServer × List Msg :=
  es.foldl (fun acc e =>
    let r := stepUDP acc.1 e
    (r.1, acc.2 ++ r.2)) (srv, [])

/-- State of the TCP server (`TCPQuizServer`): the registry keyed by handler
thread, the bank, the `game_over` flag, the legacy `game_active` flag (still
written by `end_game`) and the question duration. -/
structure TCPServer where
  clients : Registry
  questions : List Question
  gameOver : Bool
  gameActive : Bool
  questionDuration : Nat
deriving Repr, DecidableEq

/-- The single leaderboard blob `TCPQuizServer.end_game` broadcasts: header
and one rank line per client, each newline-terminated. -/
def leaderboardTextTCP (sorted : List ClientInfo) : String :=
  "🏆 FINAL LEADERBOARD 🏆\n" ++
    String.join (sorted.enum.map (fun p =>
      toString (p.1 + 1) ++ ". " ++ p.2.username ++ ": " ++ toString p.2.score ++ " points\n"))

/-- `TCPQuizServer.end_game`: unlike its UDP sibling it has no guard against
running twice — every call clears `game_active`, sets `game_over`, broadcasts
the banner and the leaderboard blob, and resets every score to zero. -/
def endGameTCP (srv : TCPServer) : TCPServer × List Msg :=
  let srv1 : TCPServer := { srv with gameActive := false, gameOver := true }
  let sorted := sortDesc (srv1.clients.map (·.2))
  let msgs := [Msg.broadcast "Quiz completed! Final results:",
    Msg.broadcast (leaderboardTextTCP sorted)]
  let srv2 : TCPServer :=
    { srv1 with clients := srv1.clients.map (fun p => (p.1, { p.2 with score := 0 })) }
  (srv2, msgs)

/-- `TCPQuizServer.broadcast_player_list`: nothing on an empty registry,
otherwise the listing (kept newline-terminated, unlike the UDP variant). -/
def broadcastPlayerListTCP (r : Registry) : List Msg :=
  if r.isEmpty then [] else [Msg.broadcast (playerListString r)]

/-- `TCPQuizServer.send_question_to_client`: same progression logic as the
UDP variant, ending the game through the unguarded `end_game`. -/
def sendQuestionTCP (srv : TCPServer) (t : Addr) (now : Nat) : TCPServer × List Msg :=
  match lookupClient srv.clients t with
  | none => (srv, [])
  | some ci =>
    if ci.finished then (srv, [])
    else if _h : srv.questions.length ≤ ci.questionIndex then
      let ci' := { ci with finished := true }
      let srv' : TCPServer := { srv with clients := setClient srv.clients t ci' }
      if allFinished srv'.clients then endGameTCP srv'
      else (srv', [Msg.send t "Quiz completed! Waiting for other players to finish..."])
    else
      let q := srv.questions.get ⟨ci.questionIndex, by omega⟩
      let full := formatQuestion ci.questionIndex q srv.questionDuration
      let ci' := { ci with questionStartTime := now }
      let srv' : TCPServer := { srv with clients := setClient srv.clients t ci' }
      (srv', [Msg.send t full])

/-- `TCPQuizServer.handle_client_answer`.  Same grading as the UDP variant
(whole trimmed lower-cased payload against the correct letter) with two
differences: a client whose pointer already ran past the bank is marked
finished silently (no waiting notice there), and completion goes through the
unguarded `end_game`. -/
def handleAnswerTCP (srv : TCPServer) (t : Addr) (payload : String) (now : Nat) :
    TCPServer × List Msg :=
  match lookupClient srv.clients t with
  | none => (srv, [])
  | some ci =>
    if ci.finished then (srv, [Msg.send t "error:Quiz completed"])
    else if _h : srv.questions.length ≤ ci.questionIndex then
      let ci' := { ci with finished := true }
      let srv' : TCPServer := { srv with clients := setClient srv.clients t ci' }
      if allFinished srv'.clients then endGameTCP srv' else (srv', [])
    else
      let answer := pyLower (pyStrip payload)
      let idx := ci.questionIndex
      let q := srv.questions.get ⟨idx, by omega⟩
      let correctText := (lookupAssoc q.options q.correct).getD ""
      let newScore := if answer = q.correct then ci.score + 10 else ci.score
      let reply :=
        if answer = q.correct then Msg.send t "correct:10 points"
        else Msg.send t ("incorrect:Correct answer was " ++ q.correct ++ ") " ++ correctText)
      let ci2 := { ci with lastSeen := now, score := newScore, questionIndex := idx + 1 }
      if _hf : srv.questions.length ≤ idx + 1 then
        let ci3 := { ci2 with finished := true }
        let srv' : TCPServer := { srv with clients := setClient srv.clients t ci3 }
        if allFinished srv'.clients then
          let r := endGameTCP srv'
          (r.1, reply :: r.2)
        else (srv', [reply, Msg.send t "Quiz completed! Waiting for other players to finish..."])
      else
        let srv' : TCPServer := { srv with clients := setClient srv.clients t ci2 }
        let r := sendQuestionTCP srv' t now
        (r.1, reply :: r.2)

/-- `TCPQuizServer.handle_client_join`: empty trimmed names are rejected with
no state change; a name already registered evicts its first (and, keys being
unique, only) holder through `cleanup_client` — which also announces the
shrunken player list — before the newcomer is registered, greeted and
announced; unless the game is over the first question follows. -/
def handleJoinTCP (srv : TCPServer) (t : Addr) (username : String) (now : Nat) :
    TCPServer × List Msg :=
  if pyStrip username = "" then (srv, [Msg.send t "error:Invalid username"])
  else
    let uname := pyStrip username
    let evicted :=
      match findThreadByName srv.clients uname with
      | some oldT =>
          let r' := removeClient srv.clients oldT
          (r', broadcastPlayerListTCP r')
      | none => (srv.clients, [])
    let clients2 := setClient evicted.1 t (freshClient uname now)
    let srv' : TCPServer := { srv with clients := clients2 }
    let msgs := evicted.2 ++ Msg.send t ("welcome:" ++ uname) :: broadcastPlayerListTCP clients2
    if srv'.gameOver then
      (srv', msgs ++ [Msg.send t "Game over! Please wait for the next session."])
    else
      let r := sendQuestionTCP srv' t now
      (r.1, msgs ++ r.2)

/-- `TCPQuizServer.question_timeout_handler`: identical pointer-checked
advance as the UDP variant, through the unguarded `end_game`. -/
def timeoutTCP (srv : TCPServer) (t : Addr) (qidx : Nat) (now : Nat) :
    TCPServer × List Msg :=
  match lookupClient srv.clients t with
  | none => (srv, [])
  | some ci =>
    if ci.finished || ci.questionIndex != qidx then (srv, [])
    else if h : qidx < srv.questions.length then
      let q := srv.questions.get ⟨qidx, h⟩
      let correctText := (lookupAssoc q.options q.correct).getD ""
      let msg1 := Msg.send t ("Time's up! Correct answer: " ++ q.correct ++ ") " ++ correctText)
      let ci' := { ci with questionIndex := qidx + 1 }
      if _hf : srv.questions.length ≤ qidx + 1 then
        let ci'' := { ci' with finished := true }
        let srv' : TCPServer := { srv with clients := setClient srv.clients t ci'' }
        if allFinished srv'.clients then
          let r := endGameTCP srv'
          (r.1, msg1 :: r.2)
        else (srv', [msg1, Msg.send t "Quiz completed! Waiting for other players to finish..."])
      else
        let srv' : TCPServer := { srv with clients := setClient srv.clients t ci' }
        let r := sendQuestionTCP srv' t now
        (r.1, msg1 :: r.2)
    else (srv, [])

/-- `TCPQuizServer.broadcast_loop`, one sweep: every client idle past the
60-unit threshold is removed through `cleanup_client`, which announces the
player list remaining after each removal. -/
def cleanupTCP (srv : TCPServer) (now : Nat) : TCPServer × List Msg :=
  let stale := (srv.clients.filter (fun p => decide (60 < now - p.2.lastSeen))).map (·.1)
  stale.foldl (fun acc t =>
    let r' := removeClient acc.1.clients t
    let srv' : TCPServer := { acc.1 with clients := r' }
    (srv', acc.2 ++ broadcastPlayerListTCP r')) (srv, [])

/-- Dispatch of `TCPQuizServer.handle_client`: `ping` answers `pong` without
touching any state (in contrast to the UDP dispatch); an `answer` from a
connection that never completed a join is dropped (`client_info` is unset).
A thread evicted by a same-name join still holds its orphaned info dict in
CPython, but its later answers neither touch the registry nor reach the
client (its socket entry is gone), so they are no-ops here too. -/
def stepTCP (srv : TCPServer) (e : Event) : TCPServer × List Msg :=
  match e with
  | .join t name now => handleJoinTCP srv t name now
  | .answer t payload now => handleAnswerTCP srv t payload now
  | .ping t _ => (srv, [Msg.send t "pong"])
  | .timeout t qidx now => timeoutTCP srv t qidx now
  | .cleanup now => cleanupTCP srv now

/-- Run of a whole event trace against the TCP server. -/
def runTCP (srv : TCPServer) (es : List Event) : TCPServer × List Msg :=
  es.foldl (fun acc e =>
    let r := stepTCP acc.1 e
    (r.1, acc.2 ++ r.2)) (srv, [])

/-- Outcome of opening and reading `questions.txt` at startup: the file may
be missing (`FileNotFoundError`), raise some other error, or yield lines. -/
inductive FileOutcome where
  | notFound
  | readError
  | ok (lines : List String)
deriving Repr, DecidableEq

/-- CPython `s.split(sep, 1)` when the second piece is demanded: `none` when
the separator is absent (subscripting `[1]` would raise `IndexError`). -/
def pySplitFirstRest (sep : Char) (s : String) : Option (String × String) :=
  match pySplit sep s with
  | [] => none
  | [_] => none
  | c :: rest => some (c, String.intercalate (String.singleton sep) rest)

/-- Option-field loop of `TCPQuizServer.load_questions`: each of the four
option texts contributes `letter → body`; an empty option text means
subscripting `[0]` raises, aborting the whole load. -/
def parseOptionFields (acc : List (String × String)) :
    List String → Option (List (String × String))
  | [] => some acc
  | opt :: rest =>
    if opt.isEmpty then none
    else
      let letter := String.singleton (opt.data.headD ' ').toLower
      let body : String := ⟨(opt.data.drop 2).dropWhile (fun c => c = ' ' || c = ')')⟩
      parseOptionFields (setAssoc acc letter body) rest

/-- One line of `questions.txt` under `TCPQuizServer.load_questions`:
`some none` when the line is skipped (blank, or fewer than six pipe-separated
fields), `none` when parsing it raises (no colon in the first field, or an
empty option field), and `some (some q)` on success. -/
def parseLine (line : String) : Option (Option Question) :=
  let line := pyStrip line
  if line = "" then some none
  else
    let parts := pySplit '|' line
    if h : 6 ≤ parts.length then
      let head := parts.get ⟨0, by omega⟩
      let qid := (pySplit ':' head).headD ""
      match pySplitFirstRest ':' head with
      | none => none
      | some (_, qtext) =>
        match parseOptionFields [] ((parts.drop 1).take 4) with
        | none => none
        | some opts =>
          let correct := pyLower (parts.get ⟨5, by omega⟩)
          some (some { qid := qid, text := qtext, options := opts, correct := correct })
    else some none

/-- Whole-file parse of `TCPQuizServer.load_questions`: lines accumulate
left to right; the first line that raises aborts the load and the handler
leaves an empty bank. -/
def parseLinesTCP (lines : List String) : Option (List Question) :=
  lines.foldl (fun acc line =>
    match acc with
    | none => none
    | some qs =>
      match parseLine line with
      | none => none
      | some none => some qs
      | some (some q) => some (qs ++ [q])) (some [])

/-- `TCPQuizServer.load_questions` over a file outcome: a missing file is
replaced by a built-in one-question sample bank, any other failure (read
error, or a line that raises while parsing) leaves the bank empty, and the
server construction proceeds in every case. -/
def loadQuestionsTCP : FileOutcome → List Question
  | .notFound =>
      [{ qid := "1", text := "What is TCP?",
         options := [("a", "Transmission Control Protocol"),
                     ("b", "Transfer Control Protocol"),
                     ("c", "Transmission Check Protocol"),
                     ("d", "Transfer Check Protocol")],
         correct := "a" }]
  | .readError => []
  | .ok lines =>
      match parseLinesTCP lines with
      | none => []
      | some qs => qs

/-- `TCPQuizServer.__init__`: loads the bank and starts with a clean state —
there is no refusal path, whatever the loader produced. -/
def initTCPServer (f : FileOutcome) : TCPServer :=
  { clients := [], questions := loadQuestionsTCP f, gameOver := false,
    gameActive := false, questionDuration := 15 }

/-- TCP server over a directly supplied bank (for claims independent of the
loader). -/
def mkTCPServer (qs : List Question) : TCPServer :=
  { clients := [], questions := qs, gameOver := false,
    gameActive := false, questionDuration := 15 }

/-- One already-stripped, non-blank line of `questions.txt` under
`UDPQuizServer._load_questions`: `some none` when the line is skipped (fewer
than six pipe-separated fields), `none` when parsing it raises (no colon in
the first field, or an empty option field), and `some (some q)` on success.
Unlike the TCP parser, the correct letter is stripped before lowering. -/
def parseLineUDP (line : String) : Option (Option Question) :=
  let parts := pySplit '|' line
  if h : 6 ≤ parts.length then
    let head := parts.get ⟨0, by omega⟩
    let qid := (pySplit ':' head).headD ""
    match pySplitFirstRest ':' head with
    | none => none
    | some (_, qtext) =>
      match parseOptionFields [] ((parts.drop 1).take 4) with
      | none => none
      | some opts =>
        let correct := pyLower (pyStrip (parts.get ⟨5, by omega⟩))
        some (some { qid := qid, text := qtext, options := opts, correct := correct })
  else some none

/-- Whole parse of one candidate file under `UDPQuizServer._load_questions`:
the raw lines are stripped and blank-filtered up front, then parsed left to
right; the first line that raises aborts the whole load. -/
def parseLinesUDP (lines : List String) : Option (List Question) :=
  ((lines.map pyStrip).filter (fun l => !l.isEmpty)).foldl (fun acc line =>
    match acc with
    | none => none
    | some qs =>
      match parseLineUDP line with
      | none => none
      | some none => some qs
      | some (some q) => some (qs ++ [q])) (some [])

/-- Candidate-path loop of `UDPQuizServer._load_questions`: the paths are
tried in order; a missing file moves on to the next candidate; any other
failure (read error, or a line that raises while parsing) clears the bank
and returns at once; parsed questions accumulate across candidates and a
non-empty accumulation is returned as soon as a candidate has been parsed;
when the candidates are exhausted the built-in sample question is used. -/
def loadQuestionsUDPFrom (acc : List Question) : List FileOutcome → List Question
  | [] =>
      [{ qid := "1", text := "What is UDP?",
         options := [("a", "User Datagram Protocol"),
                     ("b", "Universal Data Protocol"),
                     ("c", "Unified Data Protocol"),
                     ("d", "User Data Protocol")],
         correct := "a" }]
  | f :: rest =>
    match f with
    | .notFound => loadQuestionsUDPFrom acc rest
    | .readError => []
    | .ok lines =>
      match parseLinesUDP lines with
      | none => []
      | some qs =>
        if (acc ++ qs).isEmpty then loadQuestionsUDPFrom (acc ++ qs) rest
        else acc ++ qs

/-- `UDPQuizServer._load_questions` over the outcomes of its three candidate
paths (`questions.txt` beside the script, in the parent directory, and in
the TCP sibling directory). -/
def loadQuestionsUDP (f1 f2 f3 : FileOutcome) : List Question :=
  loadQuestionsUDPFrom [] [f1, f2, f3]

/-- `UDPQuizServer.__init__`: loads the bank over the candidate-path
outcomes and starts with a clean state — like the TCP constructor there is
no refusal path, whatever the loader produced. -/
def initUDPServerFromFiles (f1 f2 f3 : FileOutcome) : UDPServer :=
  { clients := [], questions := loadQuestionsUDP f1 f2 f3, gameOver := false,
    questionDuration := 15 }

/-- Four well-formed options shared by the sample bank. -/
def sampleOpts : List (String × String) :=
  [("a", "Alpha"), ("b", "Bravo"), ("c", "Charlie"), ("d", "Delta")]

/-- Sample question with correct letter `a`. -/
def q1 : Question := { qid := "1", text := "First", options := sampleOpts, correct := "a" }

/-- Sample question with correct letter `a`. -/
def q2 : Question := { qid := "2", text := "Second", options := sampleOpts, correct := "a" }

/-- One-question sample bank. -/
def bank1 : List Question := [q1]

/-- Two-question sample bank. -/
def bank2 : List Question := [q1, q2]

/-- A bank is well formed when every question's correct letter is present in
its option table (the spec's data model guarantees this; CPython raises a
`KeyError` otherwise, which the model's defaulted lookup does not replay). -/
def WellFormedBank (qs : List Question) : Prop :=
  ∀ q ∈ qs, (lookupAssoc q.options q.correct).isSome

/-- Progression view of one registered client: pointer and finished flag. -/
def qiOf (r : Registry) (a : Addr) : Option (Nat × Bool) :=
  (lookupClient r a).map (fun ci => (ci.questionIndex, ci.finished))

/-- Display names of a registry in registration order. -/
def namesOf (r : Registry) : List String :=
  r.map (fun p => p.2.username)

/-- At most one registry entry per display name. -/
def NamesUnique (r : Registry) : Prop :=
  (namesOf r).Nodup

/-- Per-client progression invariant: the pointer never passes the end of the
bank, and the finished flag is set exactly at the end. -/
def ClientInv (qs : List Question) (ci : ClientInfo) : Prop :=
  ci.questionIndex ≤ qs.length ∧ (ci.finished = true → ci.questionIndex = qs.length)

/-- All registered clients of a UDP server satisfy the progression invariant. -/
def MemInvUDP (s : UDPServer) : Prop :=
  ∀ p ∈ s.clients, ClientInv s.questions p.2

/-- Answer or timeout events: the only events the per-participant race rule
is about. -/
def isAnswerTimeout : Event → Bool
  | .answer .. => true
  | .timeout .. => true
  | _ => false

/-- All registered clients of a TCP server satisfy the progression invariant. -/
def MemInvTCP (s : TCPServer) : Prop :=
  ∀ p ∈ s.clients, ClientInv s.questions p.2

/-- Join events. -/
def isJoin : Event → Bool
  | .join .. => true
  | _ => false

/-- Sample question with correct letter `a`. -/
def q3 : Question := { qid := "3", text := "Third", options := sampleOpts, correct := "a" }

/-- Three-question sample bank. -/
def bank3 : List Question := [q1, q2, q3]

/-- Registry of the spec's leaderboard example: scores a=30, b=30, c=10 with
a registered before b. -/
def exampleRegistry : Registry :=
  [(1, { freshClient "a" 0 with score := 30 }),
   (2, { freshClient "b" 0 with score := 30 }),
   (3, { freshClient "c" 0 with score := 10 })]

/-- UDP server holding the leaderboard-example registry. -/
def exampleServer : UDPServer :=
  { clients := exampleRegistry, questions := bank1, gameOver := false, questionDuration := 15 }

theorem lookupClient_set_self (r : Registry) (a : Addr) (ci : ClientInfo) :
    lookupClient (setClient r a ci) a = some ci := by
  induction r with
  | nil => simp [setClient, lookupClient]
  | cons p r ih =>
    obtain ⟨b, cj⟩ := p
    by_cases h : b = a
    · simp [setClient, lookupClient, h]
    · simp [setClient, lookupClient, h, ih]

theorem lookupClient_set_ne (r : Registry) (a b : Addr) (ci : ClientInfo) (h : b ≠ a) :
    lookupClient (setClient r a ci) b = lookupClient r b := by
  induction r with
  | nil => simp [setClient, lookupClient, Ne.symm h]
  | cons p r ih =>
    obtain ⟨c, cj⟩ := p
    by_cases hc : c = a
    · subst hc
      simp [setClient, lookupClient, Ne.symm h]
    · simp only [setClient, lookupClient, if_neg hc]
      by_cases hb : c = b <;> simp [lookupClient, hb, ih]

theorem lookupClient_resetScore (r : Registry) (a : Addr) :
    lookupClient (r.map (fun p => (p.1, { p.2 with score := 0 }))) a =
      (lookupClient r a).map (fun ci => { ci with score := 0 }) := by
  induction r with
  | nil => simp [lookupClient]
  | cons p r ih =>
    obtain ⟨b, cj⟩ := p
    by_cases h : b = a
    · simp [lookupClient, h]
    · simp [lookupClient, h, ih]

theorem lookupClient_mem {r : Registry} {a : Addr} {ci : ClientInfo}
    (h : lookupClient r a = some ci) : (a, ci) ∈ r := by
  induction r with
  | nil => simp [lookupClient] at h
  | cons p r ih =>
    obtain ⟨b, cj⟩ := p
    by_cases hb : b = a
    · subst hb
      simp [lookupClient] at h
      simp [h]
    · simp [lookupClient, hb] at h
      exact List.mem_cons_of_mem _ (ih h)

theorem mem_setClient {r : Registry} {a : Addr} {ci : ClientInfo} {p : Addr × ClientInfo}
    (h : p ∈ setClient r a ci) : p = (a, ci) ∨ p ∈ r := by
  induction r with
  | nil => simp [setClient] at h; simp [h]
  | cons q r ih =>
    obtain ⟨b, cj⟩ := q
    by_cases hb : b = a
    · subst hb
      simp [setClient] at h
      rcases h with h | h
      · exact Or.inl h
      · exact Or.inr (List.mem_cons_of_mem _ h)
    · simp [setClient, hb] at h
      rcases h with h | h
      · exact Or.inr (by simp [h])
      · rcases ih h with h' | h'
        · exact Or.inl h'
        · exact Or.inr (List.mem_cons_of_mem _ h')

theorem setClient_set (r : Registry) (a : Addr) (x y : ClientInfo) :
    setClient (setClient r a x) a y = setClient r a y := by
  induction r with
  | nil => simp [setClient]
  | cons p r ih =>
    obtain ⟨b, cj⟩ := p
    by_cases h : b = a
    · simp [setClient, h]
    · simp [setClient, h, ih]

theorem endGameUDP_questions (s : UDPServer) : (endGameUDP s).1.questions = s.questions := by
  by_cases h : s.gameOver <;> simp [endGameUDP, h]

theorem endGameUDP_gameOver (s : UDPServer) : (endGameUDP s).1.gameOver = true ∨
    ((endGameUDP s).1 = s ∧ s.gameOver = true) := by
  by_cases h : s.gameOver <;> simp [endGameUDP, h]

theorem endGameUDP_lookup (s : UDPServer) (a : Addr) :
    lookupClient (endGameUDP s).1.clients a =
      if s.gameOver then lookupClient s.clients a
      else (lookupClient s.clients a).map (fun ci => { ci with score := 0 }) := by
  by_cases h : s.gameOver <;> simp [endGameUDP, h, lookupClient_resetScore]

theorem endGameUDP_qiOf (s : UDPServer) (a : Addr) :
    qiOf (endGameUDP s).1.clients a = qiOf s.clients a := by
  simp only [qiOf, endGameUDP_lookup]
  by_cases h : s.gameOver
  · simp [h]
  · simp only [if_neg h]
    cases lookupClient s.clients a <;> simp

theorem mem_endGameUDP {s : UDPServer} {p : Addr × ClientInfo}
    (h : p ∈ (endGameUDP s).1.clients) :
    ∃ q ∈ s.clients, p.1 = q.1 ∧ p.2.questionIndex = q.2.questionIndex ∧
      p.2.finished = q.2.finished ∧ p.2.username = q.2.username := by
  by_cases hg : s.gameOver
  · simp only [endGameUDP, if_pos hg] at h
    exact ⟨p, h, rfl, rfl, rfl, rfl⟩
  · simp only [endGameUDP, if_neg hg, List.mem_map] at h
    obtain ⟨q, hq, rfl⟩ := h
    exact ⟨q, hq, rfl, rfl, rfl, rfl⟩

theorem sendQuestionUDP_none {s : UDPServer} {a : Addr} {now : Nat}
    (h : lookupClient s.clients a = none) : sendQuestionUDP s a now = (s, []) := by
  simp [sendQuestionUDP, h]

theorem sendQuestionUDP_finished {s : UDPServer} {a : Addr} {now : Nat} {ci : ClientInfo}
    (h : lookupClient s.clients a = some ci) (hf : ci.finished = true) :
    sendQuestionUDP s a now = (s, []) := by
  simp [sendQuestionUDP, h, hf]

theorem sendQuestionUDP_lt {s : UDPServer} {a : Addr} {now : Nat} {ci : ClientInfo}
    (h : lookupClient s.clients a = some ci) (hf : ci.finished = false)
    (hlt : ci.questionIndex < s.questions.length) :
    sendQuestionUDP s a now =
      ({ s with clients := setClient s.clients a { ci with questionStartTime := now } },
       [Msg.send a (formatQuestion ci.questionIndex
          (s.questions.get ⟨ci.questionIndex, hlt⟩) s.questionDuration)]) := by
  simp only [sendQuestionUDP, h, hf]
  rw [dif_neg (by omega)]
  simp

theorem sendQuestionUDP_ge {s : UDPServer} {a : Addr} {now : Nat} {ci : ClientInfo}
    (h : lookupClient s.clients a = some ci) (hf : ci.finished = false)
    (hge : s.questions.length ≤ ci.questionIndex) :
    sendQuestionUDP s a now =
      (if allFinished (setClient s.clients a { ci with finished := true }) then
        endGameUDP { s with clients := setClient s.clients a { ci with finished := true } }
      else
        ({ s with clients := setClient s.clients a { ci with finished := true } },
         [Msg.send a "Quiz completed! Waiting for other players to finish..."])) := by
  simp only [sendQuestionUDP, h, hf]
  rw [dif_pos hge]
  rfl

theorem handleAnswerUDP_lt_notlast {s : UDPServer} {a : Addr} {payload : String} {now : Nat}
    {ci : ClientInfo}
    (h : lookupClient s.clients a = some ci) (hf : ci.finished = false)
    (hlast : ci.questionIndex + 1 < s.questions.length) :
    handleAnswerUDP s a payload now =
      (let q := s.questions.get ⟨ci.questionIndex, by omega⟩
       let reply :=
         if pyStrip (pyLower payload) = q.correct then Msg.send a "correct:10 points"
         else Msg.send a ("incorrect:Correct answer was " ++ q.correct ++ ") " ++
           (lookupAssoc q.options q.correct).getD "")
       let ci2 : ClientInfo :=
         { ci with
           lastSeen := now,
           score := if pyStrip (pyLower payload) = q.correct then ci.score + 10 else ci.score,
           questionIndex := ci.questionIndex + 1,
           questionStartTime := now }
       ({ s with clients := setClient s.clients a ci2 },
        [reply, Msg.send a (formatQuestion (ci.questionIndex + 1)
          (s.questions.get ⟨ci.questionIndex + 1, hlast⟩) s.questionDuration)])) := by
  have hnl : ¬ (s.questions.length ≤ ci.questionIndex) := by omega
  have hnl2 : ¬ (s.questions.length ≤ ci.questionIndex + 1) := by omega
  simp only [handleAnswerUDP, h, hf, Bool.false_eq_true, if_false]
  rw [dif_neg hnl, dif_neg hnl2]
  rw [sendQuestionUDP_lt (lookupClient_set_self ..) rfl (by simpa using hlast)]
  simp only [setClient_set, lookupClient_set_self]

theorem handleAnswerUDP_lt_last {s : UDPServer} {a : Addr} {payload : String} {now : Nat}
    {ci : ClientInfo}
    (h : lookupClient s.clients a = some ci) (hf : ci.finished = false)
    (hlt : ci.questionIndex < s.questions.length)
    (hlast : s.questions.length ≤ ci.questionIndex + 1) :
    handleAnswerUDP s a payload now =
      (let q := s.questions.get ⟨ci.questionIndex, hlt⟩
       let reply :=
         if pyStrip (pyLower payload) = q.correct then Msg.send a "correct:10 points"
         else Msg.send a ("incorrect:Correct answer was " ++ q.correct ++ ") " ++
           (lookupAssoc q.options q.correct).getD "")
       let ci3 : ClientInfo :=
         { ci with
           lastSeen := now,
           score := if pyStrip (pyLower payload) = q.correct then ci.score + 10 else ci.score,
           questionIndex := ci.questionIndex + 1,
           finished := true }
       let srv' : UDPServer := { s with clients := setClient s.clients a ci3 }
       if allFinished srv'.clients then
         ((endGameUDP srv').1, reply :: (endGameUDP srv').2)
       else (srv', [reply, Msg.send a "Quiz completed! Waiting for other players to finish..."])) := by
  have hnl : ¬ (s.questions.length ≤ ci.questionIndex) := by omega
  simp only [handleAnswerUDP, h, hf, Bool.false_eq_true, if_false]
  rw [dif_neg hnl, dif_pos hlast]

theorem endGameUDP_gameOver_false {s : UDPServer} (h : s.gameOver = false) :
    (endGameUDP s).1.gameOver = true := by
  simp [endGameUDP, h]



theorem handleAnswerUDP_advance {s : UDPServer} {a : Addr} {payload : String} {now : Nat}
    {ci : ClientInfo}
    (h : lookupClient s.clients a = some ci) (hf : ci.finished = false)
    (hlt : ci.questionIndex < s.questions.length) :
    ∃ ci', lookupClient (handleAnswerUDP s a payload now).1.clients a = some ci' ∧
      ci'.questionIndex = ci.questionIndex + 1 ∧
      ci'.finished = decide (s.questions.length ≤ ci.questionIndex + 1) ∧
      ci'.username = ci.username ∧
      (ci'.score = (if pyStrip (pyLower payload) = (s.questions.get ⟨ci.questionIndex, hlt⟩).correct
          then ci.score + 10 else ci.score) ∨
        ((handleAnswerUDP s a payload now).1.gameOver = true ∧ ci'.score = 0)) ∧
      (handleAnswerUDP s a payload now).2.head? =
        some (if pyStrip (pyLower payload) = (s.questions.get ⟨ci.questionIndex, hlt⟩).correct
          then Msg.send a "correct:10 points"
          else Msg.send a ("incorrect:Correct answer was " ++
            (s.questions.get ⟨ci.questionIndex, hlt⟩).correct ++ ") " ++
            (lookupAssoc (s.questions.get ⟨ci.questionIndex, hlt⟩).options
              (s.questions.get ⟨ci.questionIndex, hlt⟩).correct).getD "")) ∧
      (handleAnswerUDP s a payload now).1.questions = s.questions := by
  by_cases hlast : s.questions.length ≤ ci.questionIndex + 1
  · rw [handleAnswerUDP_lt_last h hf hlt hlast]
    by_cases hm : pyStrip (pyLower payload) = (s.questions.get ⟨ci.questionIndex, hlt⟩).correct
    all_goals simp only [hm, if_true, if_false, ite_true, ite_false]
    all_goals split
    all_goals try
      (rw [endGameUDP_lookup]
       dsimp only
       by_cases hg : s.gameOver
       · rw [if_pos hg, lookupClient_set_self]
         exact ⟨_, rfl, rfl, by simp [hf, hlast], rfl, Or.inl rfl, rfl,
           by rw [endGameUDP_questions]⟩
       · rw [if_neg hg, lookupClient_set_self]
         exact ⟨_, rfl, rfl, by simp [hf, hlast], rfl,
           Or.inr ⟨endGameUDP_gameOver_false (by simp [hg]), rfl⟩, rfl,
           by rw [endGameUDP_questions]⟩)
    all_goals rw [lookupClient_set_self]
    all_goals exact ⟨_, rfl, rfl, by simp [hf, hlast], rfl, Or.inl rfl,
      by first | rfl | trivial, by first | rfl | trivial⟩
  · rw [handleAnswerUDP_lt_notlast h hf (by omega)]
    by_cases hm : pyStrip (pyLower payload) = (s.questions.get ⟨ci.questionIndex, hlt⟩).correct
    all_goals simp only [hm, if_true, if_false, ite_true, ite_false]
    all_goals rw [lookupClient_set_self]
    all_goals exact ⟨_, rfl, rfl, by simp [hf, hlast], rfl, Or.inl rfl,
      by first | rfl | trivial, by first | rfl | trivial⟩

theorem handleAnswerUDP_none {s : UDPServer} {a : Addr} {payload : String} {now : Nat}
    (h : lookupClient s.clients a = none) :
    handleAnswerUDP s a payload now = (s, [Msg.send a "error:Not registered"]) := by
  simp [handleAnswerUDP, h]

theorem handleAnswerUDP_finished {s : UDPServer} {a : Addr} {payload : String} {now : Nat}
    {ci : ClientInfo} (h : lookupClient s.clients a = some ci) (hf : ci.finished = true) :
    handleAnswerUDP s a payload now = (s, [Msg.send a "error:Quiz completed"]) := by
  simp [handleAnswerUDP, h, hf]

theorem handleAnswerUDP_ge {s : UDPServer} {a : Addr} {payload : String} {now : Nat}
    {ci : ClientInfo} (h : lookupClient s.clients a = some ci) (hf : ci.finished = false)
    (hge : s.questions.length ≤ ci.questionIndex) :
    handleAnswerUDP s a payload now =
      (if allFinished (setClient s.clients a { ci with finished := true }) then
        endGameUDP { s with clients := setClient s.clients a { ci with finished := true } }
      else
        ({ s with clients := setClient s.clients a { ci with finished := true } },
         [Msg.send a "Quiz completed! Waiting for other players to finish..."])) := by
  simp only [handleAnswerUDP, h, hf, Bool.false_eq_true, if_false]
  rw [dif_pos hge]

theorem timeoutUDP_none {s : UDPServer} {a : Addr} {qidx now : Nat}
    (h : lookupClient s.clients a = none) : timeoutUDP s a qidx now = (s, []) := by
  simp [timeoutUDP, h]

theorem timeoutUDP_noop {s : UDPServer} {a : Addr} {qidx now : Nat} {ci : ClientInfo}
    (h : lookupClient s.clients a = some ci)
    (hg : ci.finished = true ∨ ci.questionIndex ≠ qidx) :
    timeoutUDP s a qidx now = (s, []) := by
  rcases hg with hg | hg
  · simp [timeoutUDP, h, hg]
  · simp [timeoutUDP, h, hg]

theorem timeoutUDP_oob {s : UDPServer} {a : Addr} {qidx now : Nat} {ci : ClientInfo}
    (h : lookupClient s.clients a = some ci) (hf : ci.finished = false)
    (heq : ci.questionIndex = qidx) (hge : ¬ qidx < s.questions.length) :
    timeoutUDP s a qidx now = (s, []) := by
  simp only [timeoutUDP, h, hf, heq, Bool.false_eq_true, if_false, bne_self_eq_false,
    Bool.or_self, hge, dite_false]

theorem timeoutUDP_lt_last {s : UDPServer} {a : Addr} {qidx now : Nat} {ci : ClientInfo}
    (h : lookupClient s.clients a = some ci) (hf : ci.finished = false)
    (heq : ci.questionIndex = qidx) (hlt : qidx < s.questions.length)
    (hlast : s.questions.length ≤ qidx + 1) :
    timeoutUDP s a qidx now =
      (let q := s.questions.get ⟨qidx, hlt⟩
       let msg1 := Msg.send a ("Time's up! Correct answer: " ++ q.correct ++ ") " ++
         (lookupAssoc q.options q.correct).getD "")
       let ci3 : ClientInfo := { ci with questionIndex := qidx + 1, finished := true }
       let srv' : UDPServer := { s with clients := setClient s.clients a ci3 }
       if allFinished srv'.clients then
         ((endGameUDP srv').1, msg1 :: (endGameUDP srv').2)
       else (srv', [msg1, Msg.send a "Quiz completed! Waiting for other players to finish..."])) := by
  simp only [timeoutUDP, h, hf, heq, Bool.false_eq_true, if_false, bne_self_eq_false,
    Bool.or_self]
  rw [dif_pos hlt, dif_pos hlast]

theorem timeoutUDP_lt_notlast {s : UDPServer} {a : Addr} {qidx now : Nat} {ci : ClientInfo}
    (h : lookupClient s.clients a = some ci) (hf : ci.finished = false)
    (heq : ci.questionIndex = qidx) (hlast : qidx + 1 < s.questions.length) :
    timeoutUDP s a qidx now =
      (let q := s.questions.get ⟨qidx, by omega⟩
       let msg1 := Msg.send a ("Time's up! Correct answer: " ++ q.correct ++ ") " ++
         (lookupAssoc q.options q.correct).getD "")
       let ci2 : ClientInfo := { ci with questionIndex := qidx + 1, questionStartTime := now }
       ({ s with clients := setClient s.clients a ci2 },
        [msg1, Msg.send a (formatQuestion (qidx + 1)
          (s.questions.get ⟨qidx + 1, hlast⟩) s.questionDuration)])) := by
  simp only [timeoutUDP, h, hf, heq, Bool.false_eq_true, if_false, bne_self_eq_false,
    Bool.or_self]
  rw [dif_pos (by omega : qidx < s.questions.length), dif_neg (by omega)]
  rw [sendQuestionUDP_lt (lookupClient_set_self ..) rfl (by simpa using hlast)]
  simp only [setClient_set, lookupClient_set_self]

theorem timeoutUDP_advance {s : UDPServer} {a : Addr} {qidx now : Nat} {ci : ClientInfo}
    (h : lookupClient s.clients a = some ci) (hf : ci.finished = false)
    (heq : ci.questionIndex = qidx) (hlt : qidx < s.questions.length) :
    qiOf (timeoutUDP s a qidx now).1.clients a =
      some (qidx + 1, decide (s.questions.length ≤ qidx + 1)) ∧
    (timeoutUDP s a qidx now).1.questions = s.questions := by
  by_cases hlast : s.questions.length ≤ qidx + 1
  · rw [timeoutUDP_lt_last h hf heq hlt hlast]
    by_cases hall : allFinished (setClient s.clients a
      { ci with questionIndex := qidx + 1, finished := true })
    · simp only [hall, if_true]
      constructor
      · rw [endGameUDP_qiOf]
        simp [qiOf, lookupClient_set_self, hlast]
      · rw [endGameUDP_questions]
    · simp only [hall, if_false]
      simp [qiOf, lookupClient_set_self, hlast]
  · rw [timeoutUDP_lt_notlast h hf heq (by omega)]
    simp [qiOf, lookupClient_set_self, hlast, hf]

theorem handleAnswerUDP_qiOf_mono {s : UDPServer} {a : Addr} {payload : String} {now : Nat}
    {p : Nat} {f : Bool} (h : qiOf s.clients a = some (p, f)) :
    ∃ p' f', qiOf (handleAnswerUDP s a payload now).1.clients a = some (p', f') ∧
      (p' = p ∨ p' = p + 1) := by
  unfold qiOf at h
  cases hci : lookupClient s.clients a with
  | none => rw [hci] at h; simp at h
  | some ci =>
    rw [hci] at h
    simp at h
    obtain ⟨hp, hfeq⟩ := h
    cases hf : ci.finished with
    | true =>
      rw [handleAnswerUDP_finished hci hf]
      exact ⟨p, f, by simp [qiOf, hci, hp, ← hfeq, hf], Or.inl rfl⟩
    | false =>
      by_cases hge : s.questions.length ≤ ci.questionIndex
      · rw [handleAnswerUDP_ge hci hf hge]
        split
        · refine ⟨p, true, ?_, Or.inl rfl⟩
          rw [endGameUDP_qiOf]
          simp [qiOf, lookupClient_set_self, hp]
        · exact ⟨p, true, by simp [qiOf, lookupClient_set_self, hp], Or.inl rfl⟩
      · obtain ⟨ci', hl, hqi, -, -, -, -, -⟩ :=
          @handleAnswerUDP_advance s a payload now ci hci hf (by omega)
        exact ⟨p + 1, ci'.finished, by simp [qiOf, hl, hqi, hp], Or.inr rfl⟩

theorem timeoutUDP_qiOf_mono {s : UDPServer} {a : Addr} {qidx now : Nat}
    {p : Nat} {f : Bool} (h : qiOf s.clients a = some (p, f)) :
    ∃ p' f', qiOf (timeoutUDP s a qidx now).1.clients a = some (p', f') ∧
      (p' = p ∨ p' = p + 1) := by
  unfold qiOf at h
  cases hci : lookupClient s.clients a with
  | none => rw [hci] at h; simp at h
  | some ci =>
    rw [hci] at h
    simp at h
    obtain ⟨hp, hfeq⟩ := h
    cases hf : ci.finished with
    | true =>
      rw [timeoutUDP_noop hci (Or.inl hf)]
      exact ⟨p, f, by simp [qiOf, hci, hp, ← hfeq, hf], Or.inl rfl⟩
    | false =>
      by_cases heq : ci.questionIndex = qidx
      · by_cases hlt : qidx < s.questions.length
        · obtain ⟨h1, -⟩ := timeoutUDP_advance hci hf heq hlt
          exact ⟨qidx + 1, decide (s.questions.length ≤ qidx + 1), h1, Or.inr (by omega)⟩
        · rw [timeoutUDP_oob hci hf heq hlt]
          exact ⟨p, f, by simp [qiOf, hci, hp, ← hfeq, hf], Or.inl rfl⟩
      · rw [timeoutUDP_noop hci (Or.inr heq)]
        exact ⟨p, f, by simp [qiOf, hci, hp, ← hfeq, hf], Or.inl rfl⟩

theorem memInv_setClient {qs : List Question} {r : Registry} {a : Addr} {ci' : ClientInfo}
    (hr : ∀ p ∈ r, ClientInv qs p.2) (hci' : ClientInv qs ci') :
    ∀ p ∈ setClient r a ci', ClientInv qs p.2 := by
  intro p hp
  rcases mem_setClient hp with h | h
  · rw [h]
    exact hci'
  · exact hr p h

theorem memInvUDP_endGame {s : UDPServer} (h : MemInvUDP s) : MemInvUDP (endGameUDP s).1 := by
  intro p hp
  obtain ⟨q, hq, -, h2, h3, -⟩ := mem_endGameUDP hp
  have hqi := h q hq
  rw [MemInvUDP] at *
  constructor
  · rw [endGameUDP_questions, h2]
    exact hqi.1
  · rw [endGameUDP_questions, h2, h3]
    exact hqi.2

theorem memInvUDP_sendQuestion {s : UDPServer} {a : Addr} {now : Nat}
    (h : MemInvUDP s) : MemInvUDP (sendQuestionUDP s a now).1 := by
  cases hci : lookupClient s.clients a with
  | none => rw [sendQuestionUDP_none hci]; exact h
  | some ci =>
    have hmem := h _ (lookupClient_mem hci)
    cases hf : ci.finished with
    | true => rw [sendQuestionUDP_finished hci hf]; exact h
    | false =>
      by_cases hge : s.questions.length ≤ ci.questionIndex
      · rw [sendQuestionUDP_ge hci hf hge]
        have hfin : ClientInv s.questions { ci with finished := true } :=
          ⟨hmem.1, fun _ => by have := hmem.1; simp at this ⊢; omega⟩
        split
        · exact memInvUDP_endGame (memInv_setClient h hfin)
        · exact memInv_setClient h hfin
      · rw [sendQuestionUDP_lt hci hf (by omega)]
        exact memInv_setClient h ⟨hmem.1, fun hx => by simp [hf] at hx⟩

theorem memInvUDP_handleAnswer {s : UDPServer} {a : Addr} {payload : String} {now : Nat}
    (h : MemInvUDP s) : MemInvUDP (handleAnswerUDP s a payload now).1 := by
  cases hci : lookupClient s.clients a with
  | none => rw [handleAnswerUDP_none hci]; exact h
  | some ci =>
    have hmem := h _ (lookupClient_mem hci)
    cases hf : ci.finished with
    | true => rw [handleAnswerUDP_finished hci hf]; exact h
    | false =>
      by_cases hge : s.questions.length ≤ ci.questionIndex
      · rw [handleAnswerUDP_ge hci hf hge]
        have hfin : ClientInv s.questions { ci with finished := true } :=
          ⟨hmem.1, fun _ => by have := hmem.1; simp at this ⊢; omega⟩
        split
        · exact memInvUDP_endGame (memInv_setClient h hfin)
        · exact memInv_setClient h hfin
      · by_cases hlast : s.questions.length ≤ ci.questionIndex + 1
        · rw [handleAnswerUDP_lt_last hci hf (by omega) hlast]
          by_cases hm : pyStrip (pyLower payload) =
            (s.questions.get ⟨ci.questionIndex, by omega⟩).correct
          all_goals simp only [hm, if_true, if_false, ite_true, ite_false]
          all_goals split
          all_goals first
            | exact memInvUDP_endGame
                (memInv_setClient h ⟨by simp only; omega, fun _ => by simp only; omega⟩)
            | exact memInv_setClient h ⟨by simp only; omega, fun _ => by simp only; omega⟩
        · rw [handleAnswerUDP_lt_notlast hci hf (by omega)]
          by_cases hm : pyStrip (pyLower payload) =
            (s.questions.get ⟨ci.questionIndex, by omega⟩).correct
          all_goals simp only [hm, if_true, if_false, ite_true, ite_false]
          all_goals exact memInv_setClient h ⟨by simp only; omega, fun hx => by simp [hf] at hx⟩

theorem memInvUDP_timeout {s : UDPServer} {a : Addr} {qidx now : Nat}
    (h : MemInvUDP s) : MemInvUDP (timeoutUDP s a qidx now).1 := by
  cases hci : lookupClient s.clients a with
  | none => rw [timeoutUDP_none hci]; exact h
  | some ci =>
    have hmem := h _ (lookupClient_mem hci)
    cases hf : ci.finished with
    | true => rw [timeoutUDP_noop hci (Or.inl hf)]; exact h
    | false =>
      by_cases heq : ci.questionIndex = qidx
      · by_cases hlt : qidx < s.questions.length
        · by_cases hlast : s.questions.length ≤ qidx + 1
          · rw [timeoutUDP_lt_last hci hf heq hlt hlast]
            by_cases hall : allFinished (setClient s.clients a
              { ci with questionIndex := qidx + 1, finished := true })
            all_goals simp only [hall, Bool.false_eq_true, eq_self_iff_true, if_true, if_false]
            · exact memInvUDP_endGame
                (memInv_setClient h ⟨by simp only; omega, fun _ => by simp only; omega⟩)
            · exact memInv_setClient h ⟨by simp only; omega, fun _ => by simp only; omega⟩
          · rw [timeoutUDP_lt_notlast hci hf heq (by omega)]
            exact memInv_setClient h ⟨by simp only; omega, fun hx => by simp [hf] at hx⟩
        · rw [timeoutUDP_oob hci hf heq hlt]; exact h
      · rw [timeoutUDP_noop hci (Or.inr heq)]; exact h

theorem runUDP_fst_eq (es : List Event) (s : UDPServer) (ms : List Msg) :
    (es.foldl (fun acc e =>
      let r := stepUDP acc.1 e
      (r.1, acc.2 ++ r.2)) (s, ms)).1 = (runUDP s es).1 := by
  induction es generalizing s ms with
  | nil => rfl
  | cons e es ih =>
    simp only [runUDP, List.foldl_cons]
    rw [ih, ih]

theorem runUDP_cons_fst (s : UDPServer) (e : Event) (es : List Event) :
    (runUDP s (e :: es)).1 = (runUDP (stepUDP s e).1 es).1 := by
  exact runUDP_fst_eq es (stepUDP s e).1 (stepUDP s e).2

theorem memInvUDP_run {s : UDPServer} {es : List Event} (h : MemInvUDP s)
    (hes : ∀ e ∈ es, isAnswerTimeout e = true) : MemInvUDP (runUDP s es).1 := by
  induction es generalizing s with
  | nil => exact h
  | cons e es ih =>
    rw [runUDP_cons_fst]
    refine ih ?_ (fun x hx => hes x (List.mem_cons_of_mem _ hx))
    have he := hes e (List.mem_cons_self ..)
    cases e with
    | answer a payload now => exact memInvUDP_handleAnswer h
    | timeout a qidx now => exact memInvUDP_timeout h
    | join a name now => simp [isAnswerTimeout] at he
    | ping a now => simp [isAnswerTimeout] at he
    | cleanup now => simp [isAnswerTimeout] at he

theorem timeoutRunUDP (k : Nat) : ∀ (s : UDPServer) (a : Addr) (p now : Nat),
    qiOf s.clients a = some (p, false) → p + k = s.questions.length → 0 < k →
    qiOf (runUDP s ((List.range' p k).map (fun i => Event.timeout a i now))).1.clients a =
      some (s.questions.length, true) := by
  induction k with
  | zero =>
    intro s a p now h1 h2 h3
    omega
  | succ k ih =>
    intro s a p now h1 h2 h3
    rw [List.range'_succ, List.map_cons, runUDP_cons_fst]
    unfold qiOf at h1
    cases hci : lookupClient s.clients a with
    | none => rw [hci] at h1; simp at h1
    | some ci =>
      rw [hci] at h1
      simp at h1
      obtain ⟨hp, hfeq⟩ := h1
      have hlt : p < s.questions.length := by omega
      have hadv := @timeoutUDP_advance s a p now ci hci hfeq hp hlt
      cases Nat.eq_zero_or_pos k with
      | inl hk =>
        subst hk
        have hlen : s.questions.length = p + 1 := by omega
        simp only [List.range', List.map_nil]
        rw [show stepUDP s (Event.timeout a p now) = timeoutUDP s a p now from rfl]
        rw [show runUDP (timeoutUDP s a p now).1 [] = ((timeoutUDP s a p now).1, []) from rfl]
        rw [hadv.1]
        simp [hlen]
      | inr hk =>
        have hq := hadv.1
        have hqs := hadv.2
        have hnotlast : ¬ (s.questions.length ≤ p + 1) := by omega
        rw [show stepUDP s (Event.timeout a p now) = timeoutUDP s a p now from rfl]
        have hstart : qiOf (timeoutUDP s a p now).1.clients a = some (p + 1, false) := by
          rw [hq]
          simp [hnotlast]
        have := ih (timeoutUDP s a p now).1 a (p + 1) now hstart (by rw [hqs]; omega) hk
        rw [hqs] at this
        exact this

theorem handleJoinUDP_empty {s : UDPServer} {a : Addr} {payload : String} {now : Nat}
    (h : pyStrip payload = "") :
    handleJoinUDP s a payload now = (s, [Msg.send a "error:Invalid username"]) := by
  simp [handleJoinUDP, h]

theorem handleJoinUDP_valid {s : UDPServer} {a : Addr} {payload : String} {now : Nat}
    (h : ¬ pyStrip payload = "") :
    handleJoinUDP s a payload now =
      (let srv' : UDPServer :=
         { s with clients := setClient (removeByName s.clients (pyStrip payload)) a
                               (freshClient (pyStrip payload) now) }
       let msgs1 := Msg.send a ("welcome:" ++ pyStrip payload) ::
         broadcastPlayerListUDP srv'.clients
       if srv'.gameOver then
         (srv', msgs1 ++ [Msg.send a "Game over! Please wait for the next session."])
       else
         let r := sendQuestionUDP srv' a now
         (r.1, msgs1 ++ r.2)) := by
  simp [handleJoinUDP, h]

theorem sendQuestionUDP_questions (s : UDPServer) (a : Addr) (now : Nat) :
    (sendQuestionUDP s a now).1.questions = s.questions := by
  cases hci : lookupClient s.clients a with
  | none => rw [sendQuestionUDP_none hci]
  | some ci =>
    cases hf : ci.finished with
    | true => rw [sendQuestionUDP_finished hci hf]
    | false =>
      by_cases hge : s.questions.length ≤ ci.questionIndex
      · rw [sendQuestionUDP_ge hci hf hge]
        split
        · rw [endGameUDP_questions]
        · rfl
      · rw [sendQuestionUDP_lt hci hf (by omega)]

theorem handleAnswerUDP_questions (s : UDPServer) (a : Addr) (payload : String) (now : Nat) :
    (handleAnswerUDP s a payload now).1.questions = s.questions := by
  cases hci : lookupClient s.clients a with
  | none => rw [handleAnswerUDP_none hci]
  | some ci =>
    cases hf : ci.finished with
    | true => rw [handleAnswerUDP_finished hci hf]
    | false =>
      by_cases hge : s.questions.length ≤ ci.questionIndex
      · rw [handleAnswerUDP_ge hci hf hge]
        split
        · rw [endGameUDP_questions]
        · rfl
      · obtain ⟨-, -, -, -, -, -, -, hqs⟩ :=
          @handleAnswerUDP_advance s a payload now ci hci hf (by omega)
        exact hqs

theorem timeoutUDP_questions (s : UDPServer) (a : Addr) (qidx now : Nat) :
    (timeoutUDP s a qidx now).1.questions = s.questions := by
  cases hci : lookupClient s.clients a with
  | none => rw [timeoutUDP_none hci]
  | some ci =>
    cases hf : ci.finished with
    | true => rw [timeoutUDP_noop hci (Or.inl hf)]
    | false =>
      by_cases heq : ci.questionIndex = qidx
      · by_cases hlt : qidx < s.questions.length
        · exact (timeoutUDP_advance hci hf heq hlt).2
        · rw [timeoutUDP_oob hci hf heq hlt]
      · rw [timeoutUDP_noop hci (Or.inr heq)]

theorem handleJoinUDP_questions (s : UDPServer) (a : Addr) (payload : String) (now : Nat) :
    (handleJoinUDP s a payload now).1.questions = s.questions := by
  by_cases h : pyStrip payload = ""
  · rw [handleJoinUDP_empty h]
  · rw [handleJoinUDP_valid h]
    by_cases hg : s.gameOver
    · simp [hg]
    · simp [hg, sendQuestionUDP_questions]

theorem cleanupUDP_questions (s : UDPServer) (now : Nat) :
    (cleanupUDP s now).1.questions = s.questions := by
  by_cases h : (s.clients.filter
      (fun p => p.2.connected && decide (60 < now - p.2.lastSeen))).isEmpty
  · simp [cleanupUDP, h]
  · simp [cleanupUDP, h]

theorem stepUDP_questions (s : UDPServer) (e : Event) :
    (stepUDP s e).1.questions = s.questions := by
  cases e with
  | join a name now => exact handleJoinUDP_questions ..
  | answer a payload now => exact handleAnswerUDP_questions ..
  | ping a now =>
    cases h : lookupClient s.clients a with
    | none => simp [stepUDP, h]
    | some ci => simp [stepUDP, h]
  | timeout a qidx now => exact timeoutUDP_questions ..
  | cleanup now => exact cleanupUDP_questions ..

theorem endGameTCP_questions (s : TCPServer) : (endGameTCP s).1.questions = s.questions := rfl

theorem endGameTCP_gameOver (s : TCPServer) : (endGameTCP s).1.gameOver = true := rfl

theorem endGameTCP_lookup (s : TCPServer) (a : Addr) :
    lookupClient (endGameTCP s).1.clients a =
      (lookupClient s.clients a).map (fun ci => { ci with score := 0 }) := by
  simp [endGameTCP, lookupClient_resetScore]

theorem endGameTCP_qiOf (s : TCPServer) (a : Addr) :
    qiOf (endGameTCP s).1.clients a = qiOf s.clients a := by
  simp only [qiOf, endGameTCP_lookup]
  cases lookupClient s.clients a <;> simp

theorem mem_endGameTCP {s : TCPServer} {p : Addr × ClientInfo}
    (h : p ∈ (endGameTCP s).1.clients) :
    ∃ q ∈ s.clients, p.1 = q.1 ∧ p.2.questionIndex = q.2.questionIndex ∧
      p.2.finished = q.2.finished ∧ p.2.username = q.2.username ∧ p.2.score = 0 := by
  simp only [endGameTCP, List.mem_map] at h
  obtain ⟨q, hq, rfl⟩ := h
  exact ⟨q, hq, rfl, rfl, rfl, rfl, rfl⟩

theorem sendQuestionTCP_none {s : TCPServer} {a : Addr} {now : Nat}
    (h : lookupClient s.clients a = none) : sendQuestionTCP s a now = (s, []) := by
  simp [sendQuestionTCP, h]

theorem sendQuestionTCP_finished {s : TCPServer} {a : Addr} {now : Nat} {ci : ClientInfo}
    (h : lookupClient s.clients a = some ci) (hf : ci.finished = true) :
    sendQuestionTCP s a now = (s, []) := by
  simp [sendQuestionTCP, h, hf]

theorem sendQuestionTCP_lt {s : TCPServer} {a : Addr} {now : Nat} {ci : ClientInfo}
    (h : lookupClient s.clients a = some ci) (hf : ci.finished = false)
    (hlt : ci.questionIndex < s.questions.length) :
    sendQuestionTCP s a now =
      ({ s with clients := setClient s.clients a { ci with questionStartTime := now } },
       [Msg.send a (formatQuestion ci.questionIndex
          (s.questions.get ⟨ci.questionIndex, hlt⟩) s.questionDuration)]) := by
  simp only [sendQuestionTCP, h, hf]
  rw [dif_neg (by omega)]
  simp

theorem sendQuestionTCP_ge {s : TCPServer} {a : Addr} {now : Nat} {ci : ClientInfo}
    (h : lookupClient s.clients a = some ci) (hf : ci.finished = false)
    (hge : s.questions.length ≤ ci.questionIndex) :
    sendQuestionTCP s a now =
      (if allFinished (setClient s.clients a { ci with finished := true }) then
        endGameTCP { s with clients := setClient s.clients a { ci with finished := true } }
      else
        ({ s with clients := setClient s.clients a { ci with finished := true } },
         [Msg.send a "Quiz completed! Waiting for other players to finish..."])) := by
  simp only [sendQuestionTCP, h, hf]
  rw [dif_pos hge]
  rfl

theorem handleAnswerTCP_none {s : TCPServer} {a : Addr} {payload : String} {now : Nat}
    (h : lookupClient s.clients a = none) :
    handleAnswerTCP s a payload now = (s, []) := by
  simp [handleAnswerTCP, h]

theorem handleAnswerTCP_finished {s : TCPServer} {a : Addr} {payload : String} {now : Nat}
    {ci : ClientInfo} (h : lookupClient s.clients a = some ci) (hf : ci.finished = true) :
    handleAnswerTCP s a payload now = (s, [Msg.send a "error:Quiz completed"]) := by
  simp [handleAnswerTCP, h, hf]

theorem handleAnswerTCP_ge {s : TCPServer} {a : Addr} {payload : String} {now : Nat}
    {ci : ClientInfo} (h : lookupClient s.clients a = some ci) (hf : ci.finished = false)
    (hge : s.questions.length ≤ ci.questionIndex) :
    handleAnswerTCP s a payload now =
      (if allFinished (setClient s.clients a { ci with finished := true }) then
        endGameTCP { s with clients := setClient s.clients a { ci with finished := true } }
      else
        ({ s with clients := setClient s.clients a { ci with finished := true } }, [])) := by
  simp only [handleAnswerTCP, h, hf, Bool.false_eq_true, if_false]
  rw [dif_pos hge]

theorem handleAnswerTCP_lt_notlast {s : TCPServer} {a : Addr} {payload : String} {now : Nat}
    {ci : ClientInfo}
    (h : lookupClient s.clients a = some ci) (hf : ci.finished = false)
    (hlast : ci.questionIndex + 1 < s.questions.length) :
    handleAnswerTCP s a payload now =
      (let q := s.questions.get ⟨ci.questionIndex, by omega⟩
       let reply :=
         if pyLower (pyStrip payload) = q.correct then Msg.send a "correct:10 points"
         else Msg.send a ("incorrect:Correct answer was " ++ q.correct ++ ") " ++
           (lookupAssoc q.options q.correct).getD "")
       let ci2 : ClientInfo :=
         { ci with
           lastSeen := now,
           score := if pyLower (pyStrip payload) = q.correct then ci.score + 10 else ci.score,
           questionIndex := ci.questionIndex + 1,
           questionStartTime := now }
       ({ s with clients := setClient s.clients a ci2 },
        [reply, Msg.send a (formatQuestion (ci.questionIndex + 1)
          (s.questions.get ⟨ci.questionIndex + 1, hlast⟩) s.questionDuration)])) := by
  have hnl : ¬ (s.questions.length ≤ ci.questionIndex) := by omega
  have hnl2 : ¬ (s.questions.length ≤ ci.questionIndex + 1) := by omega
  simp only [handleAnswerTCP, h, hf, Bool.false_eq_true, if_false]
  rw [dif_neg hnl, dif_neg hnl2]
  rw [sendQuestionTCP_lt (lookupClient_set_self ..) rfl (by simpa using hlast)]
  simp only [setClient_set, lookupClient_set_self]

theorem handleAnswerTCP_lt_last {s : TCPServer} {a : Addr} {payload : String} {now : Nat}
    {ci : ClientInfo}
    (h : lookupClient s.clients a = some ci) (hf : ci.finished = false)
    (hlt : ci.questionIndex < s.questions.length)
    (hlast : s.questions.length ≤ ci.questionIndex + 1) :
    handleAnswerTCP s a payload now =
      (let q := s.questions.get ⟨ci.questionIndex, hlt⟩
       let reply :=
         if pyLower (pyStrip payload) = q.correct then Msg.send a "correct:10 points"
         else Msg.send a ("incorrect:Correct answer was " ++ q.correct ++ ") " ++
           (lookupAssoc q.options q.correct).getD "")
       let ci3 : ClientInfo :=
         { ci with
           lastSeen := now,
           score := if pyLower (pyStrip payload) = q.correct then ci.score + 10 else ci.score,
           questionIndex := ci.questionIndex + 1,
           finished := true }
       let srv' : TCPServer := { s with clients := setClient s.clients a ci3 }
       if allFinished srv'.clients then
         ((endGameTCP srv').1, reply :: (endGameTCP srv').2)
       else (srv', [reply, Msg.send a "Quiz completed! Waiting for other players to finish..."])) := by
  have hnl : ¬ (s.questions.length ≤ ci.questionIndex) := by omega
  simp only [handleAnswerTCP, h, hf, Bool.false_eq_true, if_false]
  rw [dif_neg hnl, dif_pos hlast]

theorem handleAnswerTCP_advance {s : TCPServer} {a : Addr} {payload : String} {now : Nat}
    {ci : ClientInfo}
    (h : lookupClient s.clients a = some ci) (hf : ci.finished = false)
    (hlt : ci.questionIndex < s.questions.length) :
    ∃ ci', lookupClient (handleAnswerTCP s a payload now).1.clients a = some ci' ∧
      ci'.questionIndex = ci.questionIndex + 1 ∧
      ci'.finished = decide (s.questions.length ≤ ci.questionIndex + 1) ∧
      ci'.username = ci.username ∧
      (ci'.score = (if pyLower (pyStrip payload) = (s.questions.get ⟨ci.questionIndex, hlt⟩).correct
          then ci.score + 10 else ci.score) ∨
        ((handleAnswerTCP s a payload now).1.gameOver = true ∧ ci'.score = 0)) ∧
      (handleAnswerTCP s a payload now).2.head? =
        some (if pyLower (pyStrip payload) = (s.questions.get ⟨ci.questionIndex, hlt⟩).correct
          then Msg.send a "correct:10 points"
          else Msg.send a ("incorrect:Correct answer was " ++
            (s.questions.get ⟨ci.questionIndex, hlt⟩).correct ++ ") " ++
            (lookupAssoc (s.questions.get ⟨ci.questionIndex, hlt⟩).options
              (s.questions.get ⟨ci.questionIndex, hlt⟩).correct).getD "")) ∧
      (handleAnswerTCP s a payload now).1.questions = s.questions := by
  by_cases hlast : s.questions.length ≤ ci.questionIndex + 1
  · rw [handleAnswerTCP_lt_last h hf hlt hlast]
    by_cases hm : pyLower (pyStrip payload) = (s.questions.get ⟨ci.questionIndex, hlt⟩).correct
    all_goals simp only [hm, if_true, if_false, ite_true, ite_false]
    all_goals split
    all_goals try
      (rw [endGameTCP_lookup, lookupClient_set_self]
       exact ⟨_, rfl, rfl, by simp [hf, hlast], rfl,
         Or.inr ⟨endGameTCP_gameOver .., rfl⟩, rfl, by rw [endGameTCP_questions]⟩)
    all_goals rw [lookupClient_set_self]
    all_goals exact ⟨_, rfl, rfl, by simp [hf, hlast], rfl, Or.inl rfl,
      by first | rfl | trivial, by first | rfl | trivial⟩
  · rw [handleAnswerTCP_lt_notlast h hf (by omega)]
    by_cases hm : pyLower (pyStrip payload) = (s.questions.get ⟨ci.questionIndex, hlt⟩).correct
    all_goals simp only [hm, if_true, if_false, ite_true, ite_false]
    all_goals rw [lookupClient_set_self]
    all_goals exact ⟨_, rfl, rfl, by simp [hf, hlast], rfl, Or.inl rfl,
      by first | rfl | trivial, by first | rfl | trivial⟩

theorem timeoutTCP_none {s : TCPServer} {a : Addr} {qidx now : Nat}
    (h : lookupClient s.clients a = none) : timeoutTCP s a qidx now = (s, []) := by
  simp [timeoutTCP, h]

theorem timeoutTCP_noop {s : TCPServer} {a : Addr} {qidx now : Nat} {ci : ClientInfo}
    (h : lookupClient s.clients a = some ci)
    (hg : ci.finished = true ∨ ci.questionIndex ≠ qidx) :
    timeoutTCP s a qidx now = (s, []) := by
  rcases hg with hg | hg
  · simp [timeoutTCP, h, hg]
  · simp [timeoutTCP, h, hg]

theorem timeoutTCP_oob {s : TCPServer} {a : Addr} {qidx now : Nat} {ci : ClientInfo}
    (h : lookupClient s.clients a = some ci) (hf : ci.finished = false)
    (heq : ci.questionIndex = qidx) (hge : ¬ qidx < s.questions.length) :
    timeoutTCP s a qidx now = (s, []) := by
  simp only [timeoutTCP, h, hf, heq, Bool.false_eq_true, if_false, bne_self_eq_false,
    Bool.or_self, hge, dite_false]

theorem timeoutTCP_lt_last {s : TCPServer} {a : Addr} {qidx now : Nat} {ci : ClientInfo}
    (h : lookupClient s.clients a = some ci) (hf : ci.finished = false)
    (heq : ci.questionIndex = qidx) (hlt : qidx < s.questions.length)
    (hlast : s.questions.length ≤ qidx + 1) :
    timeoutTCP s a qidx now =
      (let q := s.questions.get ⟨qidx, hlt⟩
       let msg1 := Msg.send a ("Time's up! Correct answer: " ++ q.correct ++ ") " ++
         (lookupAssoc q.options q.correct).getD "")
       let ci3 : ClientInfo := { ci with questionIndex := qidx + 1, finished := true }
       let srv' : TCPServer := { s with clients := setClient s.clients a ci3 }
       if allFinished srv'.clients then
         ((endGameTCP srv').1, msg1 :: (endGameTCP srv').2)
       else (srv', [msg1, Msg.send a "Quiz completed! Waiting for other players to finish..."])) := by
  simp only [timeoutTCP, h, hf, heq, Bool.false_eq_true, if_false, bne_self_eq_false,
    Bool.or_self]
  rw [dif_pos hlt, dif_pos hlast]

theorem timeoutTCP_lt_notlast {s : TCPServer} {a : Addr} {qidx now : Nat} {ci : ClientInfo}
    (h : lookupClient s.clients a = some ci) (hf : ci.finished = false)
    (heq : ci.questionIndex = qidx) (hlast : qidx + 1 < s.questions.length) :
    timeoutTCP s a qidx now =
      (let q := s.questions.get ⟨qidx, by omega⟩
       let msg1 := Msg.send a ("Time's up! Correct answer: " ++ q.correct ++ ") " ++
         (lookupAssoc q.options q.correct).getD "")
       let ci2 : ClientInfo := { ci with questionIndex := qidx + 1, questionStartTime := now }
       ({ s with clients := setClient s.clients a ci2 },
        [msg1, Msg.send a (formatQuestion (qidx + 1)
          (s.questions.get ⟨qidx + 1, hlast⟩) s.questionDuration)])) := by
  simp only [timeoutTCP, h, hf, heq, Bool.false_eq_true, if_false, bne_self_eq_false,
    Bool.or_self]
  rw [dif_pos (by omega : qidx < s.questions.length), dif_neg (by omega)]
  rw [sendQuestionTCP_lt (lookupClient_set_self ..) rfl (by simpa using hlast)]
  simp only [setClient_set, lookupClient_set_self]

theorem timeoutTCP_advance {s : TCPServer} {a : Addr} {qidx now : Nat} {ci : ClientInfo}
    (h : lookupClient s.clients a = some ci) (hf : ci.finished = false)
    (heq : ci.questionIndex = qidx) (hlt : qidx < s.questions.length) :
    qiOf (timeoutTCP s a qidx now).1.clients a =
      some (qidx + 1, decide (s.questions.length ≤ qidx + 1)) ∧
    (timeoutTCP s a qidx now).1.questions = s.questions := by
  by_cases hlast : s.questions.length ≤ qidx + 1
  · rw [timeoutTCP_lt_last h hf heq hlt hlast]
    by_cases hall : allFinished (setClient s.clients a
      { ci with questionIndex := qidx + 1, finished := true })
    all_goals simp only [hall, Bool.false_eq_true, eq_self_iff_true, if_true, if_false]
    · constructor
      · rw [endGameTCP_qiOf]
        simp [qiOf, lookupClient_set_self, hlast]
      · rw [endGameTCP_questions]
    · simp [qiOf, lookupClient_set_self, hlast]
  · rw [timeoutTCP_lt_notlast h hf heq (by omega)]
    simp [qiOf, lookupClient_set_self, hlast, hf]

theorem handleAnswerTCP_qiOf_mono {s : TCPServer} {a : Addr} {payload : String} {now : Nat}
    {p : Nat} {f : Bool} (h : qiOf s.clients a = some (p, f)) :
    ∃ p' f', qiOf (handleAnswerTCP s a payload now).1.clients a = some (p', f') ∧
      (p' = p ∨ p' = p + 1) := by
  unfold qiOf at h
  cases hci : lookupClient s.clients a with
  | none => rw [hci] at h; simp at h
  | some ci =>
    rw [hci] at h
    simp at h
    obtain ⟨hp, hfeq⟩ := h
    cases hf : ci.finished with
    | true =>
      rw [handleAnswerTCP_finished hci hf]
      exact ⟨p, f, by simp [qiOf, hci, hp, ← hfeq, hf], Or.inl rfl⟩
    | false =>
      by_cases hge : s.questions.length ≤ ci.questionIndex
      · rw [handleAnswerTCP_ge hci hf hge]
        split
        · refine ⟨p, true, ?_, Or.inl rfl⟩
          rw [endGameTCP_qiOf]
          simp [qiOf, lookupClient_set_self, hp]
        · exact ⟨p, true, by simp [qiOf, lookupClient_set_self, hp], Or.inl rfl⟩
      · obtain ⟨ci', hl, hqi, -, -, -, -, -⟩ :=
          @handleAnswerTCP_advance s a payload now ci hci hf (by omega)
        exact ⟨p + 1, ci'.finished, by simp [qiOf, hl, hqi, hp], Or.inr rfl⟩

theorem timeoutTCP_qiOf_mono {s : TCPServer} {a : Addr} {qidx now : Nat}
    {p : Nat} {f : Bool} (h : qiOf s.clients a = some (p, f)) :
    ∃ p' f', qiOf (timeoutTCP s a qidx now).1.clients a = some (p', f') ∧
      (p' = p ∨ p' = p + 1) := by
  unfold qiOf at h
  cases hci : lookupClient s.clients a with
  | none => rw [hci] at h; simp at h
  | some ci =>
    rw [hci] at h
    simp at h
    obtain ⟨hp, hfeq⟩ := h
    cases hf : ci.finished with
    | true =>
      rw [timeoutTCP_noop hci (Or.inl hf)]
      exact ⟨p, f, by simp [qiOf, hci, hp, ← hfeq, hf], Or.inl rfl⟩
    | false =>
      by_cases heq : ci.questionIndex = qidx
      · by_cases hlt : qidx < s.questions.length
        · obtain ⟨h1, -⟩ := timeoutTCP_advance hci hf heq hlt
          exact ⟨qidx + 1, decide (s.questions.length ≤ qidx + 1), h1, Or.inr (by omega)⟩
        · rw [timeoutTCP_oob hci hf heq hlt]
          exact ⟨p, f, by simp [qiOf, hci, hp, ← hfeq, hf], Or.inl rfl⟩
      · rw [timeoutTCP_noop hci (Or.inr heq)]
        exact ⟨p, f, by simp [qiOf, hci, hp, ← hfeq, hf], Or.inl rfl⟩

theorem memInvTCP_endGame {s : TCPServer} (h : MemInvTCP s) : MemInvTCP (endGameTCP s).1 := by
  intro p hp
  obtain ⟨q, hq, -, h2, h3, -, -⟩ := mem_endGameTCP hp
  have hqi := h q hq
  constructor
  · rw [endGameTCP_questions, h2]
    exact hqi.1
  · rw [endGameTCP_questions, h2, h3]
    exact hqi.2

theorem memInvTCP_sendQuestion {s : TCPServer} {a : Addr} {now : Nat}
    (h : MemInvTCP s) : MemInvTCP (sendQuestionTCP s a now).1 := by
  cases hci : lookupClient s.clients a with
  | none => rw [sendQuestionTCP_none hci]; exact h
  | some ci =>
    have hmem := h _ (lookupClient_mem hci)
    cases hf : ci.finished with
    | true => rw [sendQuestionTCP_finished hci hf]; exact h
    | false =>
      by_cases hge : s.questions.length ≤ ci.questionIndex
      · rw [sendQuestionTCP_ge hci hf hge]
        have hfin : ClientInv s.questions { ci with finished := true } :=
          ⟨hmem.1, fun _ => by have := hmem.1; simp at this ⊢; omega⟩
        split
        · exact memInvTCP_endGame (memInv_setClient h hfin)
        · exact memInv_setClient h hfin
      · rw [sendQuestionTCP_lt hci hf (by omega)]
        exact memInv_setClient h ⟨hmem.1, fun hx => by simp [hf] at hx⟩

theorem memInvTCP_handleAnswer {s : TCPServer} {a : Addr} {payload : String} {now : Nat}
    (h : MemInvTCP s) : MemInvTCP (handleAnswerTCP s a payload now).1 := by
  cases hci : lookupClient s.clients a with
  | none => rw [handleAnswerTCP_none hci]; exact h
  | some ci =>
    have hmem := h _ (lookupClient_mem hci)
    cases hf : ci.finished with
    | true => rw [handleAnswerTCP_finished hci hf]; exact h
    | false =>
      by_cases hge : s.questions.length ≤ ci.questionIndex
      · rw [handleAnswerTCP_ge hci hf hge]
        have hfin : ClientInv s.questions { ci with finished := true } :=
          ⟨hmem.1, fun _ => by have := hmem.1; simp at this ⊢; omega⟩
        split
        · exact memInvTCP_endGame (memInv_setClient h hfin)
        · exact memInv_setClient h hfin
      · by_cases hlast : s.questions.length ≤ ci.questionIndex + 1
        · rw [handleAnswerTCP_lt_last hci hf (by omega) hlast]
          by_cases hm : pyLower (pyStrip payload) =
            (s.questions.get ⟨ci.questionIndex, by omega⟩).correct
          all_goals simp only [hm, if_true, if_false, ite_true, ite_false]
          all_goals split
          all_goals first
            | exact memInvTCP_endGame
                (memInv_setClient h ⟨by simp only; omega, fun _ => by simp only; omega⟩)
            | exact memInv_setClient h ⟨by simp only; omega, fun _ => by simp only; omega⟩
        · rw [handleAnswerTCP_lt_notlast hci hf (by omega)]
          by_cases hm : pyLower (pyStrip payload) =
            (s.questions.get ⟨ci.questionIndex, by omega⟩).correct
          all_goals simp only [hm, if_true, if_false, ite_true, ite_false]
          all_goals exact memInv_setClient h ⟨by simp only; omega, fun hx => by simp [hf] at hx⟩

theorem memInvTCP_timeout {s : TCPServer} {a : Addr} {qidx now : Nat}
    (h : MemInvTCP s) : MemInvTCP (timeoutTCP s a qidx now).1 := by
  cases hci : lookupClient s.clients a with
  | none => rw [timeoutTCP_none hci]; exact h
  | some ci =>
    have hmem := h _ (lookupClient_mem hci)
    cases hf : ci.finished with
    | true => rw [timeoutTCP_noop hci (Or.inl hf)]; exact h
    | false =>
      by_cases heq : ci.questionIndex = qidx
      · by_cases hlt : qidx < s.questions.length
        · by_cases hlast : s.questions.length ≤ qidx + 1
          · rw [timeoutTCP_lt_last hci hf heq hlt hlast]
            by_cases hall : allFinished (setClient s.clients a
              { ci with questionIndex := qidx + 1, finished := true })
            all_goals simp only [hall, Bool.false_eq_true, eq_self_iff_true, if_true, if_false]
            · exact memInvTCP_endGame
                (memInv_setClient h ⟨by simp only; omega, fun _ => by simp only; omega⟩)
            · exact memInv_setClient h ⟨by simp only; omega, fun _ => by simp only; omega⟩
          · rw [timeoutTCP_lt_notlast hci hf heq (by omega)]
            exact memInv_setClient h ⟨by simp only; omega, fun hx => by simp [hf] at hx⟩
        · rw [timeoutTCP_oob hci hf heq hlt]; exact h
      · rw [timeoutTCP_noop hci (Or.inr heq)]; exact h

theorem runTCP_fst_eq (es : List Event) (s : TCPServer) (ms : List Msg) :
    (es.foldl (fun acc e =>
      let r := stepTCP acc.1 e
      (r.1, acc.2 ++ r.2)) (s, ms)).1 = (runTCP s es).1 := by
  induction es generalizing s ms with
  | nil => rfl
  | cons e es ih =>
    simp only [runTCP, List.foldl_cons]
    rw [ih, ih]

theorem runTCP_cons_fst (s : TCPServer) (e : Event) (es : List Event) :
    (runTCP s (e :: es)).1 = (runTCP (stepTCP s e).1 es).1 := by
  exact runTCP_fst_eq es (stepTCP s e).1 (stepTCP s e).2

theorem memInvTCP_run {s : TCPServer} {es : List Event} (h : MemInvTCP s)
    (hes : ∀ e ∈ es, isAnswerTimeout e = true) : MemInvTCP (runTCP s es).1 := by
  induction es generalizing s with
  | nil => exact h
  | cons e es ih =>
    rw [runTCP_cons_fst]
    refine ih ?_ (fun x hx => hes x (List.mem_cons_of_mem _ hx))
    have he := hes e (List.mem_cons_self ..)
    cases e with
    | answer a payload now => exact memInvTCP_handleAnswer h
    | timeout a qidx now => exact memInvTCP_timeout h
    | join a name now => simp [isAnswerTimeout] at he
    | ping a now => simp [isAnswerTimeout] at he
    | cleanup now => simp [isAnswerTimeout] at he

theorem timeoutRunTCP (k : Nat) : ∀ (s : TCPServer) (a : Addr) (p now : Nat),
    qiOf s.clients a = some (p, false) → p + k = s.questions.length → 0 < k →
    qiOf (runTCP s ((List.range' p k).map (fun i => Event.timeout a i now))).1.clients a =
      some (s.questions.length, true) := by
  induction k with
  | zero =>
    intro s a p now h1 h2 h3
    omega
  | succ k ih =>
    intro s a p now h1 h2 h3
    rw [List.range'_succ, List.map_cons, runTCP_cons_fst]
    unfold qiOf at h1
    cases hci : lookupClient s.clients a with
    | none => rw [hci] at h1; simp at h1
    | some ci =>
      rw [hci] at h1
      simp at h1
      obtain ⟨hp, hfeq⟩ := h1
      have hlt : p < s.questions.length := by omega
      have hadv := @timeoutTCP_advance s a p now ci hci hfeq hp hlt
      cases Nat.eq_zero_or_pos k with
      | inl hk =>
        subst hk
        have hlen : s.questions.length = p + 1 := by omega
        simp only [List.range', List.map_nil]
        rw [show stepTCP s (Event.timeout a p now) = timeoutTCP s a p now from rfl]
        rw [show runTCP (timeoutTCP s a p now).1 [] = ((timeoutTCP s a p now).1, []) from rfl]
        rw [hadv.1]
        simp [hlen]
      | inr hk =>
        have hq := hadv.1
        have hqs := hadv.2
        have hnotlast : ¬ (s.questions.length ≤ p + 1) := by omega
        rw [show stepTCP s (Event.timeout a p now) = timeoutTCP s a p now from rfl]
        have hstart : qiOf (timeoutTCP s a p now).1.clients a = some (p + 1, false) := by
          rw [hq]
          simp [hnotlast]
        have := ih (timeoutTCP s a p now).1 a (p + 1) now hstart (by rw [hqs]; omega) hk
        rw [hqs] at this
        exact this

theorem sendQuestionTCP_questions (s : TCPServer) (a : Addr) (now : Nat) :
    (sendQuestionTCP s a now).1.questions = s.questions := by
  cases hci : lookupClient s.clients a with
  | none => rw [sendQuestionTCP_none hci]
  | some ci =>
    cases hf : ci.finished with
    | true => rw [sendQuestionTCP_finished hci hf]
    | false =>
      by_cases hge : s.questions.length ≤ ci.questionIndex
      · rw [sendQuestionTCP_ge hci hf hge]
        split
        · rw [endGameTCP_questions]
        · rfl
      · rw [sendQuestionTCP_lt hci hf (by omega)]

theorem handleAnswerTCP_questions (s : TCPServer) (a : Addr) (payload : String) (now : Nat) :
    (handleAnswerTCP s a payload now).1.questions = s.questions := by
  cases hci : lookupClient s.clients a with
  | none => rw [handleAnswerTCP_none hci]
  | some ci =>
    cases hf : ci.finished with
    | true => rw [handleAnswerTCP_finished hci hf]
    | false =>
      by_cases hge : s.questions.length ≤ ci.questionIndex
      · rw [handleAnswerTCP_ge hci hf hge]
        split
        · rw [endGameTCP_questions]
        · rfl
      · obtain ⟨-, -, -, -, -, -, -, hqs⟩ :=
          @handleAnswerTCP_advance s a payload now ci hci hf (by omega)
        exact hqs

theorem timeoutTCP_questions (s : TCPServer) (a : Addr) (qidx now : Nat) :
    (timeoutTCP s a qidx now).1.questions = s.questions := by
  cases hci : lookupClient s.clients a with
  | none => rw [timeoutTCP_none hci]
  | some ci =>
    cases hf : ci.finished with
    | true => rw [timeoutTCP_noop hci (Or.inl hf)]
    | false =>
      by_cases heq : ci.questionIndex = qidx
      · by_cases hlt : qidx < s.questions.length
        · exact (timeoutTCP_advance hci hf heq hlt).2
        · rw [timeoutTCP_oob hci hf heq hlt]
      · rw [timeoutTCP_noop hci (Or.inr heq)]

theorem handleJoinTCP_empty {s : TCPServer} {t : Addr} {username : String} {now : Nat}
    (h : pyStrip username = "") :
    handleJoinTCP s t username now = (s, [Msg.send t "error:Invalid username"]) := by
  simp [handleJoinTCP, h]

theorem handleJoinTCP_valid {s : TCPServer} {t : Addr} {username : String} {now : Nat}
    (h : ¬ pyStrip username = "") :
    handleJoinTCP s t username now =
      (let evicted :=
         match findThreadByName s.clients (pyStrip username) with
         | some oldT =>
             (removeClient s.clients oldT,
              broadcastPlayerListTCP (removeClient s.clients oldT))
         | none => (s.clients, [])
       let clients2 := setClient evicted.1 t (freshClient (pyStrip username) now)
       let srv' : TCPServer := { s with clients := clients2 }
       let msgs := evicted.2 ++ Msg.send t ("welcome:" ++ pyStrip username) ::
         broadcastPlayerListTCP clients2
       if srv'.gameOver then
         (srv', msgs ++ [Msg.send t "Game over! Please wait for the next session."])
       else
         let r := sendQuestionTCP srv' t now
         (r.1, msgs ++ r.2)) := by
  simp [handleJoinTCP, h]

theorem handleJoinTCP_questions (s : TCPServer) (t : Addr) (username : String) (now : Nat) :
    (handleJoinTCP s t username now).1.questions = s.questions := by
  by_cases h : pyStrip username = ""
  · rw [handleJoinTCP_empty h]
  · rw [handleJoinTCP_valid h]
    by_cases hg : s.gameOver
    all_goals cases hfind : findThreadByName s.clients (pyStrip username)
    all_goals simp [hg, hfind, sendQuestionTCP_questions]

theorem cleanupTCP_fold_questions (l : List Addr) : ∀ (s0 : TCPServer) (ms : List Msg),
    (l.foldl (fun acc t =>
      let r' := removeClient acc.1.clients t
      let srv' : TCPServer := { acc.1 with clients := r' }
      (srv', acc.2 ++ broadcastPlayerListTCP r')) (s0, ms)).1.questions = s0.questions := by
  induction l with
  | nil => intro s0 ms; rfl
  | cons t l ih =>
    intro s0 ms
    simp only [List.foldl_cons]
    rw [ih]

theorem cleanupTCP_questions (s : TCPServer) (now : Nat) :
    (cleanupTCP s now).1.questions = s.questions := by
  unfold cleanupTCP
  exact cleanupTCP_fold_questions _ s []

theorem stepTCP_questions (s : TCPServer) (e : Event) :
    (stepTCP s e).1.questions = s.questions := by
  cases e with
  | join t name now => exact handleJoinTCP_questions ..
  | answer t payload now => exact handleAnswerTCP_questions ..
  | ping t now => rfl
  | timeout t qidx now => exact timeoutTCP_questions ..
  | cleanup now => exact cleanupTCP_questions ..

theorem mem_namesOf_setClient {r : Registry} {a : Addr} {ci : ClientInfo} {x : String}
    (h : x ∈ namesOf (setClient r a ci)) : x = ci.username ∨ x ∈ namesOf r := by
  simp only [namesOf, List.mem_map] at h
  obtain ⟨p, hp, rfl⟩ := h
  rcases mem_setClient hp with h | h
  · rw [h]
    exact Or.inl rfl
  · exact Or.inr (by simp only [namesOf, List.mem_map]; exact ⟨p, h, rfl⟩)

theorem namesUnique_setClient {r : Registry} {a : Addr} {ci : ClientInfo}
    (h : NamesUnique r) (hn : ci.username ∉ namesOf r) : NamesUnique (setClient r a ci) := by
  induction r with
  | nil => simp [NamesUnique, namesOf, setClient]
  | cons p r ih =>
    obtain ⟨b, cj⟩ := p
    simp only [NamesUnique, namesOf, List.map_cons, List.nodup_cons] at h
    simp only [namesOf, List.map_cons, List.mem_cons, not_or] at hn
    by_cases hb : b = a
    · simp only [setClient, if_pos hb, NamesUnique, namesOf, List.map_cons, List.nodup_cons]
      exact ⟨hn.2, h.2⟩
    · simp only [setClient, if_neg hb, NamesUnique, namesOf, List.map_cons, List.nodup_cons]
      constructor
      · intro hx
        rcases mem_namesOf_setClient hx with hx | hx
        · exact hn.1 hx.symm
        · exact h.1 hx
      · exact ih h.2 hn.2

theorem namesOf_sublist_filter (r : Registry) (pred : Addr × ClientInfo → Bool) :
    (namesOf (r.filter pred)).Sublist (namesOf r) := by
  unfold namesOf
  exact (List.filter_sublist r).map _

theorem namesUnique_filter {r : Registry} (h : NamesUnique r)
    (pred : Addr × ClientInfo → Bool) : NamesUnique (r.filter pred) :=
  (namesOf_sublist_filter r pred).nodup h

theorem not_mem_namesOf_removeByName (r : Registry) (n : String) :
    n ∉ namesOf (removeByName r n) := by
  intro h
  simp only [namesOf, removeByName, List.mem_map, List.mem_filter] at h
  obtain ⟨p, ⟨-, hp⟩, rfl⟩ := h
  simp at hp

theorem namesOf_setClient_samename {r : Registry} {a : Addr} {ci ci' : ClientInfo}
    (h : lookupClient r a = some ci) (hn : ci'.username = ci.username) :
    namesOf (setClient r a ci') = namesOf r := by
  induction r with
  | nil => simp [lookupClient] at h
  | cons p r ih =>
    obtain ⟨b, cj⟩ := p
    by_cases hb : b = a
    · subst hb
      simp [lookupClient] at h
      subst h
      simp [setClient, namesOf, hn]
    · simp only [lookupClient, if_neg hb] at h
      have hih := ih h
      simp only [namesOf] at hih
      simp [setClient, hb, namesOf, hih]

theorem namesOf_resetScore (r : Registry) :
    namesOf (r.map (fun p => (p.1, { p.2 with score := 0 }))) = namesOf r := by
  simp only [namesOf, List.map_map]
  rfl

theorem endGameUDP_namesOf (s : UDPServer) :
    namesOf (endGameUDP s).1.clients = namesOf s.clients := by
  by_cases h : s.gameOver
  · simp [endGameUDP, h]
  · simp [endGameUDP, h, namesOf_resetScore]

theorem endGameTCP_namesOf (s : TCPServer) :
    namesOf (endGameTCP s).1.clients = namesOf s.clients := by
  simp [endGameTCP, namesOf_resetScore]

theorem sendQuestionUDP_namesOf (s : UDPServer) (a : Addr) (now : Nat) :
    namesOf (sendQuestionUDP s a now).1.clients = namesOf s.clients := by
  cases hci : lookupClient s.clients a with
  | none => rw [sendQuestionUDP_none hci]
  | some ci =>
    cases hf : ci.finished with
    | true => rw [sendQuestionUDP_finished hci hf]
    | false =>
      by_cases hge : s.questions.length ≤ ci.questionIndex
      · rw [sendQuestionUDP_ge hci hf hge]
        split
        · rw [endGameUDP_namesOf]
          exact namesOf_setClient_samename hci rfl
        · exact namesOf_setClient_samename hci rfl
      · rw [sendQuestionUDP_lt hci hf (by omega)]
        exact namesOf_setClient_samename hci rfl

theorem sendQuestionTCP_namesOf (s : TCPServer) (a : Addr) (now : Nat) :
    namesOf (sendQuestionTCP s a now).1.clients = namesOf s.clients := by
  cases hci : lookupClient s.clients a with
  | none => rw [sendQuestionTCP_none hci]
  | some ci =>
    cases hf : ci.finished with
    | true => rw [sendQuestionTCP_finished hci hf]
    | false =>
      by_cases hge : s.questions.length ≤ ci.questionIndex
      · rw [sendQuestionTCP_ge hci hf hge]
        split
        · rw [endGameTCP_namesOf]
          exact namesOf_setClient_samename hci rfl
        · exact namesOf_setClient_samename hci rfl
      · rw [sendQuestionTCP_lt hci hf (by omega)]
        exact namesOf_setClient_samename hci rfl

theorem namesUniqueUDP_join {s : UDPServer} {a : Addr} {payload : String} {now : Nat}
    (h : NamesUnique s.clients) :
    NamesUnique (handleJoinUDP s a payload now).1.clients := by
  by_cases hu : pyStrip payload = ""
  · rw [handleJoinUDP_empty hu]
    exact h
  · rw [handleJoinUDP_valid hu]
    have hclean : NamesUnique (removeByName s.clients (pyStrip payload)) :=
      namesUnique_filter h _
    have hset : NamesUnique (setClient (removeByName s.clients (pyStrip payload)) a
        (freshClient (pyStrip payload) now)) :=
      namesUnique_setClient hclean (not_mem_namesOf_removeByName _ _)
    by_cases hg : s.gameOver
    · simpa [hg] using hset
    · have hg' : s.gameOver = false := by simpa using hg
      simp only [hg', Bool.false_eq_true, if_false]
      have hnames := sendQuestionUDP_namesOf { s with clients := setClient (removeByName s.clients (pyStrip payload)) a (freshClient (pyStrip payload) now), gameOver := false } a now
      show NamesUnique (sendQuestionUDP { s with clients := setClient (removeByName s.clients (pyStrip payload)) a (freshClient (pyStrip payload) now), gameOver := false } a now).1.clients
      unfold NamesUnique
      rw [hnames]
      exact hset

theorem findThreadByName_none {r : Registry} {u : String}
    (h : findThreadByName r u = none) : u ∉ namesOf r := by
  intro hmem
  simp only [namesOf, List.mem_map] at hmem
  obtain ⟨p, hp, rfl⟩ := hmem
  simp only [findThreadByName, Option.map_eq_none', List.find?_eq_none] at h
  have := h p hp
  simp at this

theorem not_mem_namesOf_removeFound {r : Registry} {u : String} {t : Addr}
    (hnodup : NamesUnique r) (h : findThreadByName r u = some t) :
    u ∉ namesOf (removeClient r t) := by
  induction r with
  | nil => simp [findThreadByName, List.find?] at h
  | cons p r ih =>
    obtain ⟨b, cj⟩ := p
    simp only [NamesUnique, namesOf, List.map_cons, List.nodup_cons] at hnodup
    by_cases hu : cj.username = u
    · have ht : b = t := by
        simp [findThreadByName, List.find?, hu] at h
        exact h
      subst ht
      intro hmem
      simp only [namesOf, removeClient, List.mem_map, List.mem_filter] at hmem
      obtain ⟨q, ⟨hq, hqb⟩, rfl⟩ := hmem
      rcases List.mem_cons.mp hq with rfl | hq'
      · simp at hqb
      · exact hnodup.1 (hu ▸ (by simp only [namesOf, List.mem_map]; exact ⟨q, hq', rfl⟩))
    · have h' : findThreadByName r u = some t := by
        simpa [findThreadByName, List.find?, hu] using h
      intro hmem
      simp only [namesOf, removeClient, List.mem_filter, List.mem_map] at hmem
      obtain ⟨q, ⟨hq, hqb⟩, rfl⟩ := hmem
      rcases List.mem_cons.mp hq with rfl | hq'
      · exact hu rfl
      · exact ih hnodup.2 h' (by
          simp only [namesOf, removeClient, List.mem_map, List.mem_filter]
          exact ⟨q, ⟨hq', hqb⟩, rfl⟩)

theorem namesUniqueTCP_join {s : TCPServer} {t : Addr} {username : String} {now : Nat}
    (h : NamesUnique s.clients) :
    NamesUnique (handleJoinTCP s t username now).1.clients := by
  by_cases hu : pyStrip username = ""
  · rw [handleJoinTCP_empty hu]
    exact h
  · rw [handleJoinTCP_valid hu]
    cases hfind : findThreadByName s.clients (pyStrip username) with
    | none =>
      have hset : NamesUnique (setClient s.clients t (freshClient (pyStrip username) now)) :=
        namesUnique_setClient h (findThreadByName_none hfind)
      by_cases hg : s.gameOver
      · simpa [hfind, hg] using hset
      · have hg' : s.gameOver = false := by simpa using hg
        simp only [hfind, hg', Bool.false_eq_true, if_false]
        have hnames := sendQuestionTCP_namesOf { s with clients := setClient s.clients t (freshClient (pyStrip username) now), gameOver := false } t now
        show NamesUnique (sendQuestionTCP { s with clients := setClient s.clients t (freshClient (pyStrip username) now), gameOver := false } t now).1.clients
        unfold NamesUnique
        rw [hnames]
        exact hset
    | some oldT =>
      have hclean : NamesUnique (removeClient s.clients oldT) :=
        namesUnique_filter h _
      have hset : NamesUnique (setClient (removeClient s.clients oldT) t
          (freshClient (pyStrip username) now)) :=
        namesUnique_setClient hclean (not_mem_namesOf_removeFound h hfind)
      by_cases hg : s.gameOver
      · simpa [hfind, hg] using hset
      · have hg' : s.gameOver = false := by simpa using hg
        simp only [hfind, hg', Bool.false_eq_true, if_false]
        have hnames := sendQuestionTCP_namesOf { s with clients := setClient (removeClient s.clients oldT) t (freshClient (pyStrip username) now), gameOver := false } t now
        show NamesUnique (sendQuestionTCP { s with clients := setClient (removeClient s.clients oldT) t (freshClient (pyStrip username) now), gameOver := false } t now).1.clients
        unfold NamesUnique
        rw [hnames]
        exact hset

theorem namesUniqueUDP_run {s : UDPServer} {es : List Event} (h : NamesUnique s.clients)
    (hes : ∀ e ∈ es, isJoin e = true) : NamesUnique (runUDP s es).1.clients := by
  induction es generalizing s with
  | nil => exact h
  | cons e es ih =>
    rw [runUDP_cons_fst]
    refine ih ?_ (fun x hx => hes x (List.mem_cons_of_mem _ hx))
    have he := hes e (List.mem_cons_self ..)
    cases e with
    | join a name now => exact namesUniqueUDP_join h
    | answer a payload now => simp [isJoin] at he
    | ping a now => simp [isJoin] at he
    | timeout a qidx now => simp [isJoin] at he
    | cleanup now => simp [isJoin] at he

theorem namesUniqueTCP_run {s : TCPServer} {es : List Event} (h : NamesUnique s.clients)
    (hes : ∀ e ∈ es, isJoin e = true) : NamesUnique (runTCP s es).1.clients := by
  induction es generalizing s with
  | nil => exact h
  | cons e es ih =>
    rw [runTCP_cons_fst]
    refine ih ?_ (fun x hx => hes x (List.mem_cons_of_mem _ hx))
    have he := hes e (List.mem_cons_self ..)
    cases e with
    | join a name now => exact namesUniqueTCP_join h
    | answer a payload now => simp [isJoin] at he
    | ping a now => simp [isJoin] at he
    | timeout a qidx now => simp [isJoin] at he
    | cleanup now => simp [isJoin] at he

theorem perm_insertDesc (c : ClientInfo) (l : List ClientInfo) :
    (insertDesc c l).Perm (c :: l) := by
  induction l with
  | nil => simp [insertDesc]
  | cons y ys ih =>
    by_cases h : y.score > c.score
    · simp only [insertDesc, if_pos h]
      exact (ih.cons y).trans (List.Perm.swap c y ys)
    · simp [insertDesc, if_neg h]

theorem perm_sortDesc (l : List ClientInfo) : (sortDesc l).Perm l := by
  induction l with
  | nil => simp [sortDesc]
  | cons x xs ih =>
    exact (perm_insertDesc x (sortDesc xs)).trans (ih.cons x)

theorem mem_insertDescIdx {c : Nat × ClientInfo} {l : List (Nat × ClientInfo)}
    {x : Nat × ClientInfo} (h : x ∈ insertDescIdx c l) : x = c ∨ x ∈ l := by
  induction l with
  | nil => simpa [insertDescIdx] using h
  | cons y ys ih =>
    by_cases hc : y.2.score > c.2.score
    · simp only [insertDescIdx, if_pos hc, List.mem_cons] at h
      rcases h with h | h
      · exact Or.inr (by simp [h])
      · rcases ih h with h | h
        · exact Or.inl h
        · exact Or.inr (List.mem_cons_of_mem _ h)
    · simp only [insertDescIdx, if_neg hc, List.mem_cons] at h
      rcases h with h | h
      · exact Or.inl h
      · exact Or.inr (by simpa using h)

theorem mem_sortDescIdx {l : List (Nat × ClientInfo)} {x : Nat × ClientInfo}
    (h : x ∈ sortDescIdx l) : x ∈ l := by
  induction l with
  | nil => simpa [sortDescIdx] using h
  | cons y ys ih =>
    rcases mem_insertDescIdx h with h | h
    · simp [h]
    · exact List.mem_cons_of_mem _ (ih h)

theorem pairwise_insertDescIdx {c : Nat × ClientInfo} {l : List (Nat × ClientInfo)}
    (hl : l.Pairwise rankLt) (hidx : ∀ y ∈ l, c.1 < y.1) :
    (insertDescIdx c l).Pairwise rankLt := by
  induction l with
  | nil => simp [insertDescIdx, List.pairwise_singleton]
  | cons y ys ih =>
    rcases List.pairwise_cons.mp hl with ⟨hy, hys⟩
    by_cases hc : y.2.score > c.2.score
    · simp only [insertDescIdx, if_pos hc]
      refine List.pairwise_cons.mpr ⟨?_, ih hys (fun z hz => hidx z (List.mem_cons_of_mem _ hz))⟩
      intro z hz
      rcases mem_insertDescIdx hz with rfl | hz'
      · exact Or.inl hc
      · exact hy z hz'
    · simp only [insertDescIdx, if_neg hc]
      refine List.pairwise_cons.mpr ⟨?_, hl⟩
      intro z hz
      rcases List.mem_cons.mp hz with rfl | hz'
      · rcases Nat.lt_or_ge z.2.score c.2.score with hlt | hge
        · exact Or.inl hlt
        · exact Or.inr ⟨by omega, hidx z (List.mem_cons_self ..)⟩
      · rcases hy z hz' with hlt | ⟨heq, -⟩
        · rcases Nat.lt_or_ge z.2.score c.2.score with h2 | h2
          · exact Or.inl h2
          · exact Or.inr ⟨by omega, hidx z (List.mem_cons_of_mem _ hz')⟩
        · rcases Nat.lt_or_ge z.2.score c.2.score with h2 | h2
          · exact Or.inl h2
          · exact Or.inr ⟨by omega, hidx z (List.mem_cons_of_mem _ hz')⟩

theorem pairwise_sortDescIdx {l : List (Nat × ClientInfo)}
    (hl : l.Pairwise (fun x y => x.1 < y.1)) : (sortDescIdx l).Pairwise rankLt := by
  induction l with
  | nil => simp [sortDescIdx]
  | cons x xs ih =>
    rcases List.pairwise_cons.mp hl with ⟨hx, hxs⟩
    exact pairwise_insertDescIdx (ih hxs) (fun y hy => hx y (mem_sortDescIdx hy))

theorem fst_le_of_mem_enumFrom :
    ∀ {l : List ClientInfo} {n : Nat} {y : Nat × ClientInfo},
      y ∈ List.enumFrom n l → n ≤ y.1 := by
  intro l
  induction l with
  | nil =>
    intro n y h
    simp at h
  | cons c cs ih =>
    intro n y h
    simp only [List.enumFrom, List.mem_cons] at h
    rcases h with rfl | h
    · exact Nat.le_refl n
    · have := ih h
      omega

theorem pairwise_idx_enumFrom (l : List ClientInfo) :
    ∀ n, (List.enumFrom n l).Pairwise (fun x y => x.1 < y.1) := by
  induction l with
  | nil => intro n; simp
  | cons c cs ih =>
    intro n
    refine List.pairwise_cons.mpr ⟨?_, ih (n + 1)⟩
    intro y hy
    have := fst_le_of_mem_enumFrom hy
    simp only
    omega

theorem map_snd_insertDescIdx (c : Nat × ClientInfo) (l : List (Nat × ClientInfo)) :
    (insertDescIdx c l).map (·.2) = insertDesc c.2 (l.map (·.2)) := by
  induction l with
  | nil => simp [insertDescIdx, insertDesc]
  | cons y ys ih =>
    by_cases hc : y.2.score > c.2.score
    · simp [insertDescIdx, insertDesc, hc, ih]
    · simp [insertDescIdx, insertDesc, hc]

theorem map_snd_sortDescIdx (l : List (Nat × ClientInfo)) :
    (sortDescIdx l).map (·.2) = sortDesc (l.map (·.2)) := by
  induction l with
  | nil => simp [sortDescIdx, sortDesc]
  | cons x xs ih =>
    simp [sortDescIdx, sortDesc, map_snd_insertDescIdx, ih]

theorem sortDesc_eq_sortDescIdx_enum (l : List ClientInfo) :
    sortDesc l = (sortDescIdx l.enum).map (·.2) := by
  rw [map_snd_sortDescIdx]
  congr 1
  exact (List.enum_map_snd l).symm

theorem handleJoinTCP_welcome_mem {s : TCPServer} {t : Addr} {username : String} {now : Nat}
    (h : pyStrip username ≠ "") :
    Msg.send t ("welcome:" ++ pyStrip username) ∈ (handleJoinTCP s t username now).2 := by
  rw [handleJoinTCP_valid h]
  cases hfind : findThreadByName s.clients (pyStrip username) <;>
    by_cases hg : s.gameOver <;>
    simp [hfind, hg]

theorem handleJoinUDP_welcome_mem {s : UDPServer} {a : Addr} {payload : String} {now : Nat}
    (h : pyStrip payload ≠ "") :
    Msg.send a ("welcome:" ++ pyStrip payload) ∈ (handleJoinUDP s a payload now).2 := by
  rw [handleJoinUDP_valid h]
  by_cases hg : s.gameOver <;> simp [hg]

/-- C1, counterexample.  The claim says a second answer for the same
question_pointer value is a no-op that leaves the score unchanged and is
silently ignored on the datagram transport.  On both servers there is no
duplicate detection at all: after "alice" answers question 1 correctly
(score 10), a duplicated `answer:a` datagram is graded against the advanced
pointer — the second copy earns another 10 points (score 20) and elicits a
`correct:10 points` reply rather than silence. -/
theorem c1_counterexample :
    (lookupClient (runUDP (initUDPServer bank3)
       [Event.join 1 "alice" 0, Event.answer 1 "a" 1]).1.clients 1).map (·.score) =
      some 10 ∧
    (lookupClient (runUDP (initUDPServer bank3)
       [Event.join 1 "alice" 0, Event.answer 1 "a" 1,
        Event.answer 1 "a" 2]).1.clients 1).map (·.score) = some 20 ∧
    Msg.send 1 "correct:10 points" ∈
      (stepUDP (runUDP (initUDPServer bank3)
        [Event.join 1 "alice" 0, Event.answer 1 "a" 1]).1 (Event.answer 1 "a" 2)).2 ∧
    (lookupClient (runTCP (mkTCPServer bank3)
       [Event.join 1 "alice" 0, Event.answer 1 "a" 1,
        Event.answer 1 "a" 2]).1.clients 1).map (·.score) = some 20 := by
  decide

/-- C1, amended.  A second answer for the same question_pointer value is not
detected as a duplicate.  If the participant has already finished, both
transports reject it with an explicit `error:Quiz completed` reply and the
whole server state is unchanged; otherwise the answer is processed as a
fresh answer to the participant's now-current question: the pointer advances
by one and the grading reply matches the current question, so the score may
change. -/
theorem c1_duplicate_answer_regraded :
    (∀ (s : UDPServer) (a : Addr) (payload : String) (now : Nat) (ci : ClientInfo),
       lookupClient s.clients a = some ci → ci.finished = true →
       handleAnswerUDP s a payload now = (s, [Msg.send a "error:Quiz completed"])) ∧
    (∀ (s : TCPServer) (t : Addr) (payload : String) (now : Nat) (ci : ClientInfo),
       lookupClient s.clients t = some ci → ci.finished = true →
       handleAnswerTCP s t payload now = (s, [Msg.send t "error:Quiz completed"])) ∧
    (∀ (s : UDPServer) (a : Addr) (payload : String) (now : Nat) (ci : ClientInfo)
       (h : lookupClient s.clients a = some ci) (hf : ci.finished = false)
       (hlt : ci.questionIndex < s.questions.length),
       ∃ ci', lookupClient (handleAnswerUDP s a payload now).1.clients a = some ci' ∧
         ci'.questionIndex = ci.questionIndex + 1 ∧
         (handleAnswerUDP s a payload now).2.head? =
           some (if pyStrip (pyLower payload) = (s.questions.get ⟨ci.questionIndex, hlt⟩).correct
             then Msg.send a "correct:10 points"
             else Msg.send a ("incorrect:Correct answer was " ++
               (s.questions.get ⟨ci.questionIndex, hlt⟩).correct ++ ") " ++
               (lookupAssoc (s.questions.get ⟨ci.questionIndex, hlt⟩).options
                 (s.questions.get ⟨ci.questionIndex, hlt⟩).correct).getD ""))) ∧
    (∀ (s : TCPServer) (t : Addr) (payload : String) (now : Nat) (ci : ClientInfo)
       (h : lookupClient s.clients t = some ci) (hf : ci.finished = false)
       (hlt : ci.questionIndex < s.questions.length),
       ∃ ci', lookupClient (handleAnswerTCP s t payload now).1.clients t = some ci' ∧
         ci'.questionIndex = ci.questionIndex + 1 ∧
         (handleAnswerTCP s t payload now).2.head? =
           some (if pyLower (pyStrip payload) = (s.questions.get ⟨ci.questionIndex, hlt⟩).correct
             then Msg.send t "correct:10 points"
             else Msg.send t ("incorrect:Correct answer was " ++
               (s.questions.get ⟨ci.questionIndex, hlt⟩).correct ++ ") " ++
               (lookupAssoc (s.questions.get ⟨ci.questionIndex, hlt⟩).options
                 (s.questions.get ⟨ci.questionIndex, hlt⟩).correct).getD ""))) := by
  refine ⟨?_, ?_, ?_, ?_⟩
  · intro s a payload now ci h hf
    exact handleAnswerUDP_finished h hf
  · intro s t payload now ci h hf
    exact handleAnswerTCP_finished h hf
  · intro s a payload now ci h hf hlt
    obtain ⟨ci', h1, h2, -, -, -, h6, -⟩ := @handleAnswerUDP_advance s a payload now ci h hf hlt
    exact ⟨ci', h1, h2, h6⟩
  · intro s t payload now ci h hf hlt
    obtain ⟨ci', h1, h2, -, -, -, h6, -⟩ := @handleAnswerTCP_advance s t payload now ci h hf hlt
    exact ⟨ci', h1, h2, h6⟩

/-- C1, witness for the amended theorem: a finished participant on the UDP
server gets the explicit rejection, an unfinished one gets the re-grading,
at concrete states reached by runs over the sample banks. -/
theorem c1_duplicate_answer_regraded_witness :
    (lookupClient (runUDP (initUDPServer bank1)
       [Event.join 1 "alice" 0, Event.answer 1 "a" 1]).1.clients 1).map (·.finished) =
      some true ∧
    handleAnswerUDP (runUDP (initUDPServer bank1)
       [Event.join 1 "alice" 0, Event.answer 1 "a" 1]).1 1 "a" 2 =
      ((runUDP (initUDPServer bank1) [Event.join 1 "alice" 0, Event.answer 1 "a" 1]).1,
       [Msg.send 1 "error:Quiz completed"]) ∧
    ∃ ci', lookupClient (handleAnswerUDP (runUDP (initUDPServer bank2)
        [Event.join 1 "alice" 0, Event.answer 1 "a" 1]).1 1 "a" 2).1.clients 1 = some ci' ∧
      ci'.questionIndex = 2 := by
  refine ⟨by decide, ?_, ?_⟩
  · have h1 : lookupClient (runUDP (initUDPServer bank1)
        [Event.join 1 "alice" 0, Event.answer 1 "a" 1]).1.clients 1 =
        some { username := "alice", score := 0, lastSeen := 1, connected := true,
               questionIndex := 1, finished := true, questionStartTime := 0 } := by decide
    exact c1_duplicate_answer_regraded.1 _ 1 "a" 2 _ h1 rfl
  · have h1 : lookupClient (runUDP (initUDPServer bank2)
        [Event.join 1 "alice" 0, Event.answer 1 "a" 1]).1.clients 1 =
        some { username := "alice", score := 10, lastSeen := 1, connected := true,
               questionIndex := 1, finished := false, questionStartTime := 1 } := by decide
    obtain ⟨ci', hl, hq, -⟩ :=
      c1_duplicate_answer_regraded.2.2.1 _ 1 "a" 2 _ h1 rfl (by decide)
    exact ⟨ci', hl, by rw [hq]⟩

/-- C2.  For one participant, under any interleaving of answer and timeout
events: the bank never changes across events; every answer or timeout event
either leaves the pointer unchanged or advances it by exactly one; a timeout
for any index other than the current pointer is a complete no-op (no state
change, no message), so no index is ever repeated or skipped; over any trace
of answer/timeout events the pointer never exceeds the bank length and the
finished flag is set exactly at the bank length; and driving an unfinished
participant with the timeouts for its remaining indices ends with the
pointer at exactly the bank length, finished.  Both transports. -/
theorem c2_pointer_progression :
    (∀ (s : UDPServer) (e : Event), (stepUDP s e).1.questions = s.questions) ∧
    (∀ (s : TCPServer) (e : Event), (stepTCP s e).1.questions = s.questions) ∧
    (∀ (s : UDPServer) (a : Addr) (payload : String) (now p : Nat) (f : Bool),
      qiOf s.clients a = some (p, f) →
      ∃ p' f', qiOf (handleAnswerUDP s a payload now).1.clients a = some (p', f') ∧
        (p' = p ∨ p' = p + 1)) ∧
    (∀ (s : UDPServer) (a : Addr) (qidx now p : Nat) (f : Bool),
      qiOf s.clients a = some (p, f) →
      ∃ p' f', qiOf (timeoutUDP s a qidx now).1.clients a = some (p', f') ∧
        (p' = p ∨ p' = p + 1)) ∧
    (∀ (s : TCPServer) (t : Addr) (payload : String) (now p : Nat) (f : Bool),
      qiOf s.clients t = some (p, f) →
      ∃ p' f', qiOf (handleAnswerTCP s t payload now).1.clients t = some (p', f') ∧
        (p' = p ∨ p' = p + 1)) ∧
    (∀ (s : TCPServer) (t : Addr) (qidx now p : Nat) (f : Bool),
      qiOf s.clients t = some (p, f) →
      ∃ p' f', qiOf (timeoutTCP s t qidx now).1.clients t = some (p', f') ∧
        (p' = p ∨ p' = p + 1)) ∧
    (∀ (s : UDPServer) (a : Addr) (qidx now : Nat) (ci : ClientInfo),
      lookupClient s.clients a = some ci → ci.questionIndex ≠ qidx →
      timeoutUDP s a qidx now = (s, [])) ∧
    (∀ (s : TCPServer) (t : Addr) (qidx now : Nat) (ci : ClientInfo),
      lookupClient s.clients t = some ci → ci.questionIndex ≠ qidx →
      timeoutTCP s t qidx now = (s, [])) ∧
    (∀ (s : UDPServer) (es : List Event), MemInvUDP s →
      (∀ e ∈ es, isAnswerTimeout e = true) → MemInvUDP (runUDP s es).1) ∧
    (∀ (s : TCPServer) (es : List Event), MemInvTCP s →
      (∀ e ∈ es, isAnswerTimeout e = true) → MemInvTCP (runTCP s es).1) ∧
    (∀ (s : UDPServer) (a : Addr) (p now k : Nat), WellFormedBank s.questions →
      qiOf s.clients a = some (p, false) → p + k = s.questions.length → 0 < k →
      qiOf (runUDP s ((List.range' p k).map
        (fun i => Event.timeout a i now))).1.clients a = some (s.questions.length, true)) ∧
    (∀ (s : TCPServer) (t : Addr) (p now k : Nat), WellFormedBank s.questions →
      qiOf s.clients t = some (p, false) → p + k = s.questions.length → 0 < k →
      qiOf (runTCP s ((List.range' p k).map
        (fun i => Event.timeout t i now))).1.clients t = some (s.questions.length, true)) := by
  refine ⟨stepUDP_questions, stepTCP_questions, ?_, ?_, ?_, ?_, ?_, ?_, ?_, ?_, ?_, ?_⟩
  · intro s a payload now p f h
    exact handleAnswerUDP_qiOf_mono h
  · intro s a qidx now p f h
    exact timeoutUDP_qiOf_mono h
  · intro s t payload now p f h
    exact handleAnswerTCP_qiOf_mono h
  · intro s t qidx now p f h
    exact timeoutTCP_qiOf_mono h
  · intro s a qidx now ci h hne
    exact timeoutUDP_noop h (Or.inr hne)
  · intro s t qidx now ci h hne
    exact timeoutTCP_noop h (Or.inr hne)
  · intro s es h hes
    exact memInvUDP_run h hes
  · intro s es h hes
    exact memInvTCP_run h hes
  · intro s a p now k _ h1 h2 h3
    exact timeoutRunUDP k s a p now h1 h2 h3
  · intro s t p now k _ h1 h2 h3
    exact timeoutRunTCP k s t p now h1 h2 h3

/-- C2, witness: over the two-question sample bank, a freshly joined UDP
participant satisfies the invariant hypotheses, and the two timeouts drive
its pointer to exactly the bank length, finished. -/
theorem c2_pointer_progression_witness :
    WellFormedBank (runUDP (initUDPServer bank2) [Event.join 1 "alice" 0]).1.questions ∧
    MemInvUDP (runUDP (initUDPServer bank2) [Event.join 1 "alice" 0]).1 ∧
    qiOf (runUDP (initUDPServer bank2) [Event.join 1 "alice" 0]).1.clients 1 =
      some (0, false) ∧
    qiOf (runUDP (runUDP (initUDPServer bank2) [Event.join 1 "alice" 0]).1
      ((List.range' 0 2).map (fun i => Event.timeout 1 i 16))).1.clients 1 =
      some ((runUDP (initUDPServer bank2) [Event.join 1 "alice" 0]).1.questions.length, true) := by
  refine ⟨by unfold WellFormedBank; decide, ?_, by decide, ?_⟩
  · intro p hp
    have h2 : (runUDP (initUDPServer bank2) [Event.join 1 "alice" 0]).1.clients =
        [(1, { username := "alice", score := 0, lastSeen := 0, connected := true,
               questionIndex := 0, finished := false, questionStartTime := 0 })] := by decide
    rw [h2] at hp
    simp only [List.mem_singleton] at hp
    subst hp
    exact ⟨by decide, by decide⟩
  · exact c2_pointer_progression.2.2.2.2.2.2.2.2.2.2.1
      (runUDP (initUDPServer bank2) [Event.join 1 "alice" 0]).1 1 0 16 2
      (by unfold WellFormedBank; decide) (by decide) (by decide) (by decide)

/-- C3.  The TCP `end_game` has no once-only guard: after "alice" finishes
the one-question quiz (first final-leaderboard broadcast), "bob" joins the
ended game, is registered as a spectator, yet his answer is still processed
and, all clients being finished, `end_game` runs a second time — the final
results banner and the leaderboard are broadcast twice.  The UDP `_end_game`
checks `game_over` first, so the same trace broadcasts the final results
exactly once there. -/
theorem c3_end_game_runs_twice_on_tcp :
    countBroadcast (runTCP (mkTCPServer bank1)
      [Event.join 1 "alice" 0, Event.answer 1 "a" 1,
       Event.join 2 "bob" 2, Event.answer 2 "a" 3]).2 "Quiz completed! Final results:" = 2 ∧
    countBroadcast (runUDP (initUDPServer bank1)
      [Event.join 1 "alice" 0, Event.answer 1 "a" 1,
       Event.join 2 "bob" 2, Event.answer 2 "a" 3]).2 "Quiz completed! Final results:" = 1 ∧
    (runTCP (mkTCPServer bank1)
      [Event.join 1 "alice" 0, Event.answer 1 "a" 1]).1.gameOver = true := by
  decide

/-- C4.  At most one registry entry per display name is an invariant of any
sequence of joins on both servers (the join handler evicts the prior holder
of the name before registering the newcomer), and two joins with the name
`X` in close succession leave exactly one ParticipantState named `X`: the
earlier connection's entry is gone and the later connection holds the name. -/
theorem c4_name_uniqueness :
    (∀ (qs : List Question) (es : List Event), (∀ e ∈ es, isJoin e = true) →
      NamesUnique (runUDP (initUDPServer qs) es).1.clients) ∧
    (∀ (qs : List Question) (es : List Event), (∀ e ∈ es, isJoin e = true) →
      NamesUnique (runTCP (mkTCPServer qs) es).1.clients) ∧
    countName (runUDP (initUDPServer bank1)
      [Event.join 1 "X" 0, Event.join 2 "X" 1]).1.clients "X" = 1 ∧
    lookupClient (runUDP (initUDPServer bank1)
      [Event.join 1 "X" 0, Event.join 2 "X" 1]).1.clients 1 = none ∧
    (lookupClient (runUDP (initUDPServer bank1)
      [Event.join 1 "X" 0, Event.join 2 "X" 1]).1.clients 2).map (·.username) = some "X" ∧
    countName (runTCP (mkTCPServer bank1)
      [Event.join 1 "X" 0, Event.join 2 "X" 1]).1.clients "X" = 1 ∧
    lookupClient (runTCP (mkTCPServer bank1)
      [Event.join 1 "X" 0, Event.join 2 "X" 1]).1.clients 1 = none ∧
    (lookupClient (runTCP (mkTCPServer bank1)
      [Event.join 1 "X" 0, Event.join 2 "X" 1]).1.clients 2).map (·.username) = some "X" := by
  refine ⟨?_, ?_, by decide, by decide, by decide, by decide, by decide, by decide⟩
  · intro qs es hes
    exact namesUniqueUDP_run (by simp [initUDPServer, NamesUnique, namesOf]) hes
  · intro qs es hes
    exact namesUniqueTCP_run (by simp [mkTCPServer, NamesUnique, namesOf]) hes

/-- C4, witness: the invariant conjuncts at the concrete double-join traces. -/
theorem c4_name_uniqueness_witness :
    ((∀ e ∈ [Event.join 1 "X" 0, Event.join 2 "X" 1], isJoin e = true) ∧
      NamesUnique (runUDP (initUDPServer bank1)
        [Event.join 1 "X" 0, Event.join 2 "X" 1]).1.clients) ∧
    ((∀ e ∈ [Event.join 1 "X" 0, Event.join 2 "X" 1], isJoin e = true) ∧
      NamesUnique (runTCP (mkTCPServer bank1)
        [Event.join 1 "X" 0, Event.join 2 "X" 1]).1.clients) := by
  constructor
  · exact ⟨by decide, c4_name_uniqueness.1 bank1 _ (by decide)⟩
  · exact ⟨by decide, c4_name_uniqueness.2.1 bank1 _ (by decide)⟩

/-- C5, counterexample.  The claim says grading compares the first character
of the submitted payload to the correct letter.  Submitting `ab` on the
one-question bank (correct letter `a`): the first character of the
normalized payload is `a`, equal to the correct letter, yet both servers
grade the whole payload, reply `incorrect` and award nothing. -/
theorem c5_counterexample :
    (pyStrip (pyLower "ab")).data.headD ' ' = 'a' ∧
    q1.correct = "a" ∧
    (lookupClient (runUDP (initUDPServer bank2)
      [Event.join 1 "alice" 0, Event.answer 1 "ab" 1]).1.clients 1).map (·.score) =
      some 0 ∧
    Msg.send 1 "incorrect:Correct answer was a) Alpha" ∈
      (runUDP (initUDPServer bank2)
        [Event.join 1 "alice" 0, Event.answer 1 "ab" 1]).2 ∧
    (lookupClient (runTCP (mkTCPServer bank2)
      [Event.join 1 "alice" 0, Event.answer 1 "ab" 1]).1.clients 1).map (·.score) =
      some 0 ∧
    Msg.send 1 "incorrect:Correct answer was a) Alpha" ∈
      (runTCP (mkTCPServer bank2)
        [Event.join 1 "alice" 0, Event.answer 1 "ab" 1]).2 := by
  decide

/-- C5, amended.  A timely answer is graded by comparing the entire trimmed,
lower-cased payload — not its first character — to the current question's
correct letter: on (whole-string) match the reply is `correct:10 points` and
10 points are awarded; on mismatch the reply names the correct option and
the grading leaves the score unchanged — the score can still drop to zero
in the same event if that answer finishes the last participant and the
end-of-game reset runs. -/
theorem c5_whole_payload_grading :
    (∀ (s : UDPServer) (a : Addr) (payload : String) (now : Nat) (ci : ClientInfo)
       (h : lookupClient s.clients a = some ci) (hf : ci.finished = false)
       (hlt : ci.questionIndex < s.questions.length),
       ∃ ci', lookupClient (handleAnswerUDP s a payload now).1.clients a = some ci' ∧
         (ci'.score = (if pyStrip (pyLower payload) =
             (s.questions.get ⟨ci.questionIndex, hlt⟩).correct
           then ci.score + 10 else ci.score) ∨
           ((handleAnswerUDP s a payload now).1.gameOver = true ∧ ci'.score = 0)) ∧
         (handleAnswerUDP s a payload now).2.head? =
           some (if pyStrip (pyLower payload) =
               (s.questions.get ⟨ci.questionIndex, hlt⟩).correct
             then Msg.send a "correct:10 points"
             else Msg.send a ("incorrect:Correct answer was " ++
               (s.questions.get ⟨ci.questionIndex, hlt⟩).correct ++ ") " ++
               (lookupAssoc (s.questions.get ⟨ci.questionIndex, hlt⟩).options
                 (s.questions.get ⟨ci.questionIndex, hlt⟩).correct).getD ""))) ∧
    (∀ (s : TCPServer) (t : Addr) (payload : String) (now : Nat) (ci : ClientInfo)
       (h : lookupClient s.clients t = some ci) (hf : ci.finished = false)
       (hlt : ci.questionIndex < s.questions.length),
       ∃ ci', lookupClient (handleAnswerTCP s t payload now).1.clients t = some ci' ∧
         (ci'.score = (if pyLower (pyStrip payload) =
             (s.questions.get ⟨ci.questionIndex, hlt⟩).correct
           then ci.score + 10 else ci.score) ∨
           ((handleAnswerTCP s t payload now).1.gameOver = true ∧ ci'.score = 0)) ∧
         (handleAnswerTCP s t payload now).2.head? =
           some (if pyLower (pyStrip payload) =
               (s.questions.get ⟨ci.questionIndex, hlt⟩).correct
             then Msg.send t "correct:10 points"
             else Msg.send t ("incorrect:Correct answer was " ++
               (s.questions.get ⟨ci.questionIndex, hlt⟩).correct ++ ") " ++
               (lookupAssoc (s.questions.get ⟨ci.questionIndex, hlt⟩).options
                 (s.questions.get ⟨ci.questionIndex, hlt⟩).correct).getD ""))) := by
  constructor
  · intro s a payload now ci h hf hlt
    obtain ⟨ci', h1, -, -, -, h5, h6, -⟩ := @handleAnswerUDP_advance s a payload now ci h hf hlt
    exact ⟨ci', h1, h5, h6⟩
  · intro s t payload now ci h hf hlt
    obtain ⟨ci', h1, -, -, -, h5, h6, -⟩ := @handleAnswerTCP_advance s t payload now ci h hf hlt
    exact ⟨ci', h1, h5, h6⟩

/-- C5, witness: grading a wrong whole-payload answer (`ab`) at a concrete
reachable UDP state leaves the score at 10 and replies with the correct
option. -/
theorem c5_whole_payload_grading_witness :
    ∃ ci', lookupClient (handleAnswerUDP (runUDP (initUDPServer bank3)
        [Event.join 1 "alice" 0, Event.answer 1 "a" 1]).1 1 "ab" 2).1.clients 1 = some ci' ∧
      (ci'.score = 10 ∨
        ((handleAnswerUDP (runUDP (initUDPServer bank3)
          [Event.join 1 "alice" 0, Event.answer 1 "a" 1]).1 1 "ab" 2).1.gameOver = true ∧
         ci'.score = 0)) := by
  have h1 : lookupClient (runUDP (initUDPServer bank3)
      [Event.join 1 "alice" 0, Event.answer 1 "a" 1]).1.clients 1 =
      some { username := "alice", score := 10, lastSeen := 1, connected := true,
             questionIndex := 1, finished := false, questionStartTime := 1 } := by decide
  obtain ⟨ci', hl, hsc, -⟩ :=
    c5_whole_payload_grading.1 _ 1 "ab" 2 _ h1 rfl (by decide)
  refine ⟨ci', hl, ?_⟩
  rcases hsc with hsc | hsc
  · exact Or.inl (by rw [hsc]; decide)
  · exact Or.inr hsc

/-- C7.  The leaderboard both `end_game` handlers broadcast is the stable
descending sort of the registry by score: tagging each client with its
registration index, the sorted output is strictly ordered by score
descending with ties broken by the earlier registration index; it is a
permutation of the registry; and on the concrete registry a=30, b=30, c=10
(a registered before b) the UDP end-game broadcast ranks a, b, c in that
order. -/
theorem c7_leaderboard_order :
    (∀ l : List ClientInfo, (sortDescIdx l.enum).Pairwise rankLt) ∧
    (∀ l : List ClientInfo, sortDesc l = (sortDescIdx l.enum).map (·.2)) ∧
    (∀ l : List ClientInfo, (sortDesc l).Perm l) ∧
    (sortDesc [freshClient "a" 0, freshClient "b" 0, freshClient "c" 0] =
      [freshClient "a" 0, freshClient "b" 0, freshClient "c" 0]) ∧
    ((endGameUDP exampleServer).2.drop 2 =
      [Msg.broadcast "🏆 1. a: 30 points",
       Msg.broadcast "🏆 2. b: 30 points",
       Msg.broadcast "🏆 3. c: 10 points"]) := by
  refine ⟨?_, ?_, perm_sortDesc, by decide, by decide⟩
  · intro l
    exact pairwise_sortDescIdx (pairwise_idx_enumFrom l 0)
  · intro l
    exact sortDesc_eq_sortDescIdx_enum l

/-- C8, counterexample.  The claim says an empty or unloadable bank makes
the session refuse to start.  Neither constructor refuses: a read error
leaves an empty bank (on the UDP side already when its first candidate path
fails that way, since a non-FileNotFound failure aborts the candidate loop)
and the server still starts — a join is welcomed and, the bank being empty,
the newcomer is instantly marked finished and the whole (empty) quiz
"completes"; a missing file does not even leave the bank empty, a built-in
sample question is used instead on both sides. -/
theorem c8_counterexample :
    (initTCPServer .readError).questions = [] ∧
    Msg.send 1 "welcome:alice" ∈
      (stepTCP (initTCPServer .readError) (Event.join 1 "alice" 0)).2 ∧
    (stepTCP (initTCPServer .readError) (Event.join 1 "alice" 0)).1.gameOver = true ∧
    countBroadcast (stepTCP (initTCPServer .readError) (Event.join 1 "alice" 0)).2
      "Quiz completed! Final results:" = 1 ∧
    (initTCPServer .notFound).questions.length = 1 ∧
    (initUDPServerFromFiles .readError .notFound .notFound).questions = [] ∧
    Msg.send 1 "welcome:alice" ∈
      (stepUDP (initUDPServerFromFiles .readError .notFound .notFound)
        (Event.join 1 "alice" 0)).2 ∧
    (stepUDP (initUDPServerFromFiles .readError .notFound .notFound)
      (Event.join 1 "alice" 0)).1.gameOver = true ∧
    countBroadcast (stepUDP (initUDPServerFromFiles .readError .notFound .notFound)
      (Event.join 1 "alice" 0)).2 "Quiz completed! Final results:" = 1 ∧
    (initUDPServerFromFiles .notFound .notFound .notFound).questions.length = 1 := by
  decide

/-- C8, amended.  Neither server ever refuses to start, whatever the loader
produced.  TCP: a missing `questions.txt` is replaced by the built-in
one-question sample bank; any other load failure (read error, or a line
that raises while parsing) leaves an empty bank with which the server still
starts and serves joins — every valid join is welcomed for every file
outcome.  UDP: the loader tries three candidate paths, moving past a
missing file to the next candidate, falls back to a built-in one-question
sample bank when every candidate is missing, and leaves an empty bank on
any other failure — and the server still starts and welcomes every valid
join for every combination of candidate outcomes. -/
theorem c8_never_refuses_to_start :
    (initTCPServer .notFound).questions ≠ [] ∧
    (initTCPServer .readError).questions = [] ∧
    loadQuestionsTCP (.ok ["busted line with | enough | pipe | fields | to parse | x"]) = [] ∧
    (initUDPServerFromFiles .notFound .notFound .notFound).questions ≠ [] ∧
    (∀ f2 f3 : FileOutcome, (initUDPServerFromFiles .readError f2 f3).questions = []) ∧
    loadQuestionsUDP .notFound
      (.ok ["1:Q|a) Alpha|b) Bravo|c) Charlie|d) Delta| A "]) .notFound =
      [{ qid := "1", text := "Q", options := sampleOpts, correct := "a" }] ∧
    loadQuestionsUDP
      (.ok ["busted line with | enough | pipe | fields | to parse | x"])
      .notFound .notFound = [] ∧
    (∀ (f : FileOutcome) (t : Addr) (name : String) (now : Nat), pyStrip name ≠ "" →
      Msg.send t ("welcome:" ++ pyStrip name) ∈
        (stepTCP (initTCPServer f) (Event.join t name now)).2) ∧
    (∀ (f1 f2 f3 : FileOutcome) (a : Addr) (payload : String) (now : Nat),
      pyStrip payload ≠ "" →
      Msg.send a ("welcome:" ++ pyStrip payload) ∈
        (handleJoinUDP (initUDPServerFromFiles f1 f2 f3) a payload now).2) := by
  refine ⟨by decide, by decide, by decide, by decide, ?_, by decide, by decide, ?_, ?_⟩
  · intro f2 f3
    rfl
  · intro f t name now h
    exact handleJoinTCP_welcome_mem h
  · intro f1 f2 f3 a payload now h
    exact handleJoinUDP_welcome_mem h

/-- C8, witness: a valid join is welcomed on both servers even when the
bank failed to load. -/
theorem c8_never_refuses_to_start_witness :
    pyStrip "alice" ≠ "" ∧
    Msg.send 1 ("welcome:" ++ pyStrip "alice") ∈
      (stepTCP (initTCPServer .readError) (Event.join 1 "alice" 0)).2 ∧
    Msg.send 2 ("welcome:" ++ pyStrip "alice") ∈
      (handleJoinUDP (initUDPServerFromFiles .readError .notFound .notFound) 2 "alice" 0).2 :=
  ⟨by decide,
   c8_never_refuses_to_start.2.2.2.2.2.2.2.1 .readError 1 "alice" 0 (by decide),
   c8_never_refuses_to_start.2.2.2.2.2.2.2.2 .readError .notFound .notFound 2 "alice" 0
     (by decide)⟩

/-- C9, counterexample.  The claim says a keepalive refreshes the sender's
last_activity on both transports.  The TCP dispatch answers `pong` without
touching any state: a registered client whose last activity was at time 0
still shows 0 after a ping at time 100.  The UDP dispatch does refresh. -/
theorem c9_counterexample :
    stepTCP (runTCP (mkTCPServer bank1) [Event.join 1 "alice" 0]).1 (Event.ping 1 100) =
      ((runTCP (mkTCPServer bank1) [Event.join 1 "alice" 0]).1, [Msg.send 1 "pong"]) ∧
    (lookupClient (stepTCP (runTCP (mkTCPServer bank1) [Event.join 1 "alice" 0]).1
      (Event.ping 1 100)).1.clients 1).map (·.lastSeen) = some 0 ∧
    (lookupClient (stepUDP (runUDP (initUDPServer bank1) [Event.join 1 "alice" 0]).1
      (Event.ping 1 100)).1.clients 1).map (·.lastSeen) = some 100 := by
  decide

/-- C9, amended.  On the datagram transport a `ping` refreshes the sender's
`last_seen` (and nothing else — the whole new state is the old one with only
that field of that client replaced) and elicits `pong`; `pong` is sent even
to unregistered senders, whose state is untouched.  On the stream transport
a `ping` elicits `pong` and changes no state at all, so `last_activity` is
not refreshed there. -/
theorem c9_ping_behavior :
    (∀ (s : TCPServer) (t : Addr) (now : Nat),
      stepTCP s (Event.ping t now) = (s, [Msg.send t "pong"])) ∧
    (∀ (s : UDPServer) (a : Addr) (now : Nat) (ci : ClientInfo),
      lookupClient s.clients a = some ci →
      stepUDP s (Event.ping a now) =
        ({ s with clients := setClient s.clients a { ci with lastSeen := now } },
         [Msg.send a "pong"])) ∧
    (∀ (s : UDPServer) (a : Addr) (now : Nat),
      lookupClient s.clients a = none →
      stepUDP s (Event.ping a now) = (s, [Msg.send a "pong"])) := by
  refine ⟨fun s t now => rfl, ?_, ?_⟩
  · intro s a now ci h
    simp [stepUDP, h]
  · intro s a now h
    simp [stepUDP, h]

/-- C9, witness: the UDP refresh at a concrete registered client and the
unregistered case. -/
theorem c9_ping_behavior_witness :
    (lookupClient (runUDP (initUDPServer bank1) [Event.join 1 "alice" 0]).1.clients 1 =
      some (freshClient "alice" 0) ∧
     stepUDP (runUDP (initUDPServer bank1) [Event.join 1 "alice" 0]).1 (Event.ping 1 100) =
      ({ (runUDP (initUDPServer bank1) [Event.join 1 "alice" 0]).1 with
          clients := setClient (runUDP (initUDPServer bank1)
            [Event.join 1 "alice" 0]).1.clients 1 { freshClient "alice" 0 with lastSeen := 100 } },
       [Msg.send 1 "pong"])) ∧
    (lookupClient (initUDPServer bank1).clients 7 = none ∧
     stepUDP (initUDPServer bank1) (Event.ping 7 3) = (initUDPServer bank1, [Msg.send 7 "pong"])) := by
  constructor
  · have h1 : lookupClient (runUDP (initUDPServer bank1)
        [Event.join 1 "alice" 0]).1.clients 1 = some (freshClient "alice" 0) := by decide
    exact ⟨h1, c9_ping_behavior.2.1 _ 1 100 _ h1⟩
  · exact ⟨by decide, c9_ping_behavior.2.2 (initUDPServer bank1) 7 3 (by decide)⟩

/-- C10, counterexample.  The claim's consequence — every registry read
after session completion shows all scores zero — fails: after "alice"
completes the one-question quiz (end-game reset runs), "bob" joins the
ended session and still gets his answer graded; the registry then shows
bob with 10 points although the game is over. -/
theorem c10_counterexample :
    (runUDP (initUDPServer bank1)
      [Event.join 1 "alice" 0, Event.answer 1 "a" 1]).1.gameOver = true ∧
    (lookupClient (runUDP (initUDPServer bank1)
      [Event.join 1 "alice" 0, Event.answer 1 "a" 1,
       Event.join 2 "bob" 2, Event.answer 2 "a" 3]).1.clients 2).map (·.score) = some 10 ∧
    (runUDP (initUDPServer bank1)
      [Event.join 1 "alice" 0, Event.answer 1 "a" 1,
       Event.join 2 "bob" 2, Event.answer 2 "a" 3]).1.gameOver = true := by
  decide

/-- C10, amended.  Immediately after the final leaderboard is broadcast the
score of every participant remaining in the registry is reset to zero (on
the UDP server whenever the guard lets the broadcast happen, on the TCP
server on every call); however a participant who joins or keeps answering
after completion can accrue points again, so later registry reads may show
nonzero scores. -/
theorem c10_scores_reset_at_broadcast :
    (∀ s : UDPServer, s.gameOver = false →
      ∀ p ∈ (endGameUDP s).1.clients, p.2.score = 0) ∧
    (∀ s : TCPServer, ∀ p ∈ (endGameTCP s).1.clients, p.2.score = 0) := by
  constructor
  · intro s hg p hp
    simp only [endGameUDP, hg, Bool.false_eq_true, if_false, List.mem_map] at hp
    obtain ⟨q, -, rfl⟩ := hp
    rfl
  · intro s p hp
    obtain ⟨-, -, -, -, -, -, hsc⟩ := mem_endGameTCP hp
    exact hsc

/-- C10, witness: the reset at the example registry with nonzero scores,
evaluated at one concrete remaining member. -/
theorem c10_scores_reset_at_broadcast_witness :
    exampleServer.gameOver = false ∧
    (1, { freshClient "a" 0 with score := 0 }) ∈ (endGameUDP exampleServer).1.clients ∧
    ((1, { freshClient "a" 0 with score := 0 }) : Addr × ClientInfo).2.score = 0 :=
  ⟨rfl, by decide, c10_scores_reset_at_broadcast.1 exampleServer rfl _ (by decide)⟩
